import Mathlib

/-!
Verification of the NanoKVM firmware updater (src/nanokvm-updater.py).

The script is a linear pipeline of filesystem and process-control
operations.  We embed it shallowly: the filesystem is an association
list from absolute paths (lists of components) to nodes (directories or
files with permission bits), process-visible actions (service control,
shell commands, HTTP requests, log lines) are recorded in an event
trace, and Python exceptions become an explicit optional error
propagated through the step sequence.  Environment inputs (HTTP
responses, the archive produced by parsing the downloaded bytes, the
process umask, injected filesystem faults standing for EACCES-style
failures of remove or rename syscalls) are gathered in an Env record.
-/

namespace NanoKVM

/-- An absolute filesystem path, as its list of components. -/
abbrev Path := List String

/-- A filesystem node: a directory or a regular file, each carrying its
permission bits (a plain natural, e.g. 0o755). -/
inductive Node where
  | dir (perm : Nat)
  | file (contents : String) (perm : Nat)
deriving DecidableEq, Repr

/-- Permission bits of a node. -/
def nodePerm : Node → Nat
  | .dir m => m
  | .file _ m => m

/-- File contents of a node, none for a directory. -/
def nodeContent : Node → Option String
  | .dir _ => none
  | .file c _ => some c

/-- A filesystem: an association list from paths to nodes.  Lookup takes
the first matching entry, so consing a fresh entry overwrites. -/
abbrev FS := List (Path × Node)

/-- First-match lookup of a path in the filesystem. -/
def lookupFS : FS → Path → Option Node
  | [], _ => none
  | e :: t, p => if e.1 = p then some e.2 else lookupFS t p

/-- Whether root is a (non-strict) ancestor of p, component by component. -/
def isUnder : Path → Path → Bool
  | [], _ => true
  | _ :: _, [] => false
  | a :: as, b :: bs => a == b && isUnder as bs

/-- Delete the subtree rooted at root: drop every entry at or below it. -/
def removeTree (root : Path) (fs : FS) : FS :=
  fs.filter (fun e => !(isUnder root e.1))

/-- Create or overwrite a single entry. -/
def insertNode (p : Path) (n : Node) (fs : FS) : FS :=
  (p, n) :: fs

/-- Relocate the subtree rooted at src to dst (the rename syscall under
shutil.move: entries keep their relative paths under the new root). -/
def relocate (src dst : Path) (fs : FS) : FS :=
  fs.map (fun e =>
    if isUnder src e.1 then (dst ++ e.1.drop src.length, e.2) else e)

/-- Set the permission bits of a node. -/
def setPerm : Node → Nat → Node
  | .dir _, m => .dir m
  | .file c _, m => .file c m

/-- Chmod every entry at or below root to the given bits (the effect of
the os.walk loop in set_permissions). -/
def chmodTree (root : Path) (m : Nat) (fs : FS) : FS :=
  fs.map (fun e => if isUnder root e.1 then (e.1, setPerm e.2 m) else e)

/-- The view of a filesystem below a root, as a function from relative
paths to nodes.  Two equal views mean byte-for-byte equal trees,
permission bits included. -/
def subAt (fs : FS) (root : Path) : Path → Option Node :=
  fun r => lookupFS fs (root ++ r)

/-- The view of a filesystem below a root ignoring permission bits:
relative path to directory marker or file contents. -/
def contentAt (fs : FS) (root : Path) : Path → Option (Option String) :=
  fun r => (lookupFS fs (root ++ r)).map nodeContent

/-- Mode bits actually given to a freshly created inode: requested mode
masked by the process umask (mode & ~umask on the low bits). -/
def applyUmask (mode umask : Nat) : Nat :=
  mode &&& (0o7777 ^^^ (umask &&& 0o7777))

/-! Fixed paths from FirmwareUpdater.__init__ and its methods. -/

/-- /root/nanokvm-cache, self.temporary. -/
def temporaryPath : Path := ["root", "nanokvm-cache"]

/-- /root/old, self.backup_dir. -/
def backupPath : Path := ["root", "old"]

/-- /kvmapp, self.firmware_dir. -/
def firmwarePath : Path := ["kvmapp"]

/-- /kvmapp/kvm, self.kvm_dir. -/
def kvmDirPath : Path := firmwarePath ++ ["kvm"]

/-- /etc/kvm, self.etc_kvm_dir. -/
def etcKvmPath : Path := ["etc", "kvm"]

/-- /device_key, read in download_lib. -/
def deviceKeyPath : Path := ["device_key"]

/-- /kvmapp/version, read at the end of update. -/
def versionPath : Path := firmwarePath ++ ["version"]

/-- /root/nanokvm-cache/latest, the staged firmware tree. -/
def stagedPath : Path := temporaryPath ++ ["latest"]

/-- /root/nanokvm-cache/latest.zip, the downloaded archive. -/
def zipFilePath : Path := temporaryPath ++ ["latest.zip"]

/-- /root/nanokvm-cache/libmaixcam_lib.so, the downloaded library. -/
def libFilePath : Path := temporaryPath ++ ["libmaixcam_lib.so"]

/-- /root/nanokvm-cache/latest/kvm_system/dl_lib, destination of the
library copy in download_lib. -/
def dlLibPath : Path := stagedPath ++ ["kvm_system", "dl_lib"]

/-- /kvmapp/kvm_system/kvm_stream, the stale path under the installed
tree that cleanup_files removes. -/
def kvmStreamPath : Path := firmwarePath ++ ["kvm_system", "kvm_stream"]

/-! Events, errors, environment and state. -/

/-- Externally visible actions of a run, in order. -/
inductive Event where
  | serviceStop
  | serviceRestart
  | killallNanoKVM
  | shellCmd (cmd : String)
  | httpGet (url : String)
  | logError (msg : String)
deriving DecidableEq, Repr

/-- Python exceptions raised by the script, with the data their messages
carry. -/
inductive Err where
  | runtimeError (msg : String)
  | httpStatusError (status : Nat) (url : String)
  | valueError (msg : String)
  | badZipFile
  | fileNotFoundError (p : Path)
  | fileExistsError (p : Path)
  | isADirectoryError (p : Path)
  | notADirectoryError (p : Path)
  | osError (p : Path)
deriving DecidableEq, Repr

/-- One member of the downloaded zip archive: its raw name (split on
slashes, so absolute names start with an empty component), whether it is
a directory entry, and its bytes.  Permission bits stored in the archive
are not modelled because ZipFile.extractall ignores them. -/
structure ZipEntry where
  nameParts : List String
  isDirEntry : Bool
  contents : String
deriving DecidableEq, Repr

/-- The parse of the downloaded firmware bytes: whether zipfile accepts
them at all, and the member list if so. -/
structure Archive where
  wellFormed : Bool
  entries : List ZipEntry
deriving DecidableEq, Repr

/-- Inputs of one run: clock, umask, service exit code, the two HTTP
responses, and injected filesystem faults (paths on which the raw
remove or rename syscalls fail, e.g. with EACCES). -/
structure Env where
  now : Nat
  umask : Nat
  stopExitCode : Nat
  fwStatus : Nat
  fwContentType : String
  fwBody : String
  fwArchive : Archive
  libStatus : Nat
  libContentType : String
  libBytes : String
  failRemove : List Path
  failMove : List Path

/-- Mutable state of a run: the filesystem and the event trace. -/
structure St where
  fs : FS
  trace : List Event

/-- Result of one pipeline step: the state it left behind and the
exception it raised, if any. -/
abbrev StepR := St × Option Err

/-- Sequencing with exception propagation: run the continuation only
when the first step did not raise. -/
def andThen (r : StepR) (k : St → StepR) : StepR :=
  match r with
  | (s, none) => k s
  | (s, some e) => (s, some e)

/-- Whether requests.raise_for_status accepts the code (it raises for
4xx and 5xx). -/
def statusOk (c : Nat) : Bool := c < 400

/-! Filesystem primitives with Python semantics. -/

/-- Plain shutil.rmtree: raises on a missing path, on a file, or on an
injected fault; otherwise deletes the subtree. -/
def shutilRmtree (env : Env) (p : Path) (s : St) : StepR :=
  match lookupFS s.fs p with
  | none => (s, some (.fileNotFoundError p))
  | some (.file _ _) => (s, some (.notADirectoryError p))
  | some (.dir _) =>
    if p ∈ env.failRemove then (s, some (.osError p))
    else ({ s with fs := removeTree p s.fs }, none)

/-- Destination actually written by shutil.move and shutil.copy: an
existing directory destination receives the source inside itself. -/
def realDst (fs : FS) (src dst : Path) : Path :=
  match lookupFS fs dst with
  | some (.dir _) => dst ++ [src.getLastD ""]
  | _ => dst

/-- shutil.move: fails on an injected fault or a missing source;
otherwise the source subtree is renamed onto the computed destination. -/
def shutilMove (env : Env) (src dst : Path) (s : St) : StepR :=
  if src ∈ env.failMove then (s, some (.osError src))
  else
    match lookupFS s.fs src with
    | none => (s, some (.fileNotFoundError src))
    | some _ =>
      ({ s with fs :=
          (relocate src (realDst s.fs src dst)
            (removeTree (realDst s.fs src dst) s.fs)) }, none)

/-- Mode given to files created by open for writing. -/
def freshFileMode (env : Env) : Nat := applyUmask 0o666 env.umask

/-- Mode given to directories created by mkdir and makedirs. -/
def freshDirMode (env : Env) : Nat := applyUmask 0o777 env.umask

/-- Opening a path for writing and writing bytes to it: raises if the
path is a directory or if its parent is not an existing directory;
overwriting an existing file keeps its permission bits. -/
def writeFileFS (env : Env) (p : Path) (contents : String) (s : St) : StepR :=
  match lookupFS s.fs p with
  | some (.dir _) => (s, some (.isADirectoryError p))
  | some (.file _ m) => ({ s with fs := insertNode p (.file contents m) s.fs }, none)
  | none =>
    match lookupFS s.fs p.dropLast with
    | some (.dir _) =>
      ({ s with fs := insertNode p (.file contents (freshFileMode env)) s.fs }, none)
    | _ => (s, some (.fileNotFoundError p))

/-- Path.mkdir(exist_ok=True) without parents: ok on an existing
directory, raises on an existing file or a missing parent. -/
def mkdirSingle (env : Env) (p : Path) (s : St) : StepR :=
  match lookupFS s.fs p with
  | some (.dir _) => (s, none)
  | some (.file _ _) => (s, some (.fileExistsError p))
  | none =>
    match lookupFS s.fs p.dropLast with
    | some (.dir _) =>
      ({ s with fs := insertNode p (.dir (freshDirMode env)) s.fs }, none)
    | _ => (s, some (.fileNotFoundError p))

/-- os.makedirs along the remaining components: existing directories are
entered, a file in the chain raises (partial creations remain), missing
components are created with the umask-masked default mode. -/
def makedirsE (env : Env) (fs : FS) (done : Path) : List String → FS × Option Err
  | [] => (fs, none)
  | c :: rest =>
    let q := done ++ [c]
    match lookupFS fs q with
    | some (.dir _) => makedirsE env fs q rest
    | some (.file _ _) => (fs, some (.notADirectoryError q))
    | none => makedirsE env (insertNode q (.dir (freshDirMode env)) fs) q rest

/-! The FirmwareUpdater methods. -/

/-- FirmwareUpdater.service_control: a stop runs the init script in the
foreground and raises RuntimeError on a non-zero exit; any other action
is launched detached in the background and never fails. -/
def service_control (env : Env) (action : String) (s : St) : StepR :=
  if action = "stop" then
    let s1 : St := { s with trace := s.trace ++ [.serviceStop] }
    if env.stopExitCode ≠ 0 then
      (s1, some (.runtimeError ("Service " ++ action ++ " failed")))
    else (s1, none)
  else
    ({ s with trace := s.trace ++ [.serviceRestart] }, none)

/-- FirmwareUpdater.safe_mkdir: Path.mkdir(parents=True, exist_ok=True)
with every exception swallowed. -/
def safe_mkdir (env : Env) (p : Path) (s : St) : St :=
  { s with fs := (makedirsE env s.fs [] p).1 }

/-- FirmwareUpdater.safe_remove: unlink or rmtree with errors ignored;
an injected fault leaves the path in place but never raises. -/
def safe_remove (env : Env) (p : Path) (s : St) : St :=
  if p ∈ env.failRemove then s else { s with fs := removeTree p s.fs }

/-- FirmwareUpdater.safe_execute: runs a shell command, logs on failure,
never raises.  Only the attempt is observable, in the trace. -/
def safe_execute (cmd : String) (s : St) : St :=
  { s with trace := s.trace ++ [.shellCmd cmd] }

/-- FirmwareUpdater.mkdir: delete the cache directory if it exists (a
plain rmtree, which can raise), then recreate it. -/
def mkdir (env : Env) (s : St) : StepR :=
  andThen
    (if (lookupFS s.fs temporaryPath).isSome then shutilRmtree env temporaryPath s
     else (s, none))
    (fun s1 => mkdirSingle env temporaryPath s1)

/-- FirmwareUpdater.read_file: returns the stripped file contents, or
logs and re-raises on any failure. -/
def read_file (p : Path) (s : St) : St × Except Err String :=
  match lookupFS s.fs p with
  | some (.file c _) => (s, .ok c.trim)
  | some (.dir _) =>
    ({ s with trace := s.trace ++ [.logError "Failed to read file"] },
     .error (.isADirectoryError p))
  | none =>
    ({ s with trace := s.trace ++ [.logError "Failed to read file"] },
     .error (.fileNotFoundError p))

/-- Name sanitization performed by ZipFile extraction: empty, dot and
dot-dot components of a member name are dropped. -/
def sanitize (nameParts : List String) : List String :=
  nameParts.filter (fun c => decide (c ≠ "" ∧ c ≠ "." ∧ c ≠ ".."))

/-- Target path of one archive member: the destination root followed by
the sanitized member name. -/
def extractTarget (destRoot : Path) (m : ZipEntry) : Path :=
  destRoot ++ sanitize m.nameParts

/-- Extraction of one archive member below destRoot: create missing
parent directories, then make the directory or write the file. -/
def extractMember (env : Env) (destRoot : Path) (m : ZipEntry) (s : St) : StepR :=
  match makedirsE env s.fs [] (extractTarget destRoot m).dropLast with
  | (fs1, some e) => ({ s with fs := fs1 }, some e)
  | (fs1, none) =>
    if m.isDirEntry then
      match lookupFS fs1 (extractTarget destRoot m) with
      | some (.dir _) => ({ s with fs := fs1 }, none)
      | some (.file _ _) =>
        ({ s with fs := fs1 }, some (.fileExistsError (extractTarget destRoot m)))
      | none =>
        match lookupFS fs1 (extractTarget destRoot m).dropLast with
        | some (.dir _) =>
          ({ s with fs :=
              (insertNode (extractTarget destRoot m) (.dir (freshDirMode env)) fs1) }, none)
        | _ => ({ s with fs := fs1 }, some (.fileNotFoundError (extractTarget destRoot m)))
    else
      writeFileFS env (extractTarget destRoot m) m.contents { s with fs := fs1 }

/-- ZipFile.extractall: extract the members in order, stopping at the
first failure. -/
def extractAll (env : Env) (destRoot : Path) : List ZipEntry → St → StepR
  | [], s => (s, none)
  | m :: rest, s => andThen (extractMember env destRoot m s) (extractAll env destRoot rest)

/-- The firmware URL with its cache-busting query parameter built from
the current Unix timestamp. -/
def firmwareURL (env : Env) : String :=
  "https://cdn.sipeed.com/nanokvm/latest.zip?n=" ++ toString env.now

/-- FirmwareUpdater.download_firmware: GET the archive, raise on a bad
status or a content type other than application/zip, stream the body to
latest.zip, then extract it into the cache directory. -/
def download_firmware (env : Env) (s : St) : StepR :=
  let s0 : St := { s with trace := s.trace ++ [.httpGet (firmwareURL env)] }
  if statusOk env.fwStatus = false then
    (s0, some (.httpStatusError env.fwStatus (firmwareURL env)))
  else if env.fwContentType ≠ "application/zip" then
    (s0, some (.valueError ("Invalid content type: " ++ env.fwContentType)))
  else
    andThen (writeFileFS env zipFilePath env.fwBody s0) (fun s1 =>
      if env.fwArchive.wellFormed = false then (s1, some .badZipFile)
      else extractAll env temporaryPath env.fwArchive.entries s1)

/-- The library URL carrying the device key. -/
def libURL (deviceKey : String) : String :=
  "https://maixvision.sipeed.com/api/v1/nanokvm/encryption?uid=" ++ deviceKey

/-- shutil.copy: copy contents and permission bits; an existing
directory destination receives the file inside itself, a missing
destination becomes a plain file, a missing parent raises. -/
def shutilCopy (src dst : Path) (s : St) : StepR :=
  match lookupFS s.fs src with
  | some (.file c m) =>
    (match lookupFS s.fs (realDst s.fs src dst) with
     | some (.dir _) => (s, some (.isADirectoryError (realDst s.fs src dst)))
     | some (.file _ _) =>
       ({ s with fs := insertNode (realDst s.fs src dst) (.file c m) s.fs }, none)
     | none =>
       match lookupFS s.fs (realDst s.fs src dst).dropLast with
       | some (.dir _) =>
         ({ s with fs := insertNode (realDst s.fs src dst) (.file c m) s.fs }, none)
       | _ => (s, some (.fileNotFoundError (realDst s.fs src dst))))
  | _ => (s, some (.fileNotFoundError src))

/-- FirmwareUpdater.download_lib: read the device key, GET the library
with it, validate status and content type, write the bytes next to the
archive and copy the file into latest/kvm_system/dl_lib. -/
def download_lib (env : Env) (s : St) : StepR :=
  match read_file deviceKeyPath s with
  | (s1, .error e) => (s1, some e)
  | (s1, .ok key) =>
    let s2 : St := { s1 with trace := s1.trace ++ [.httpGet (libURL key)] }
    if statusOk env.libStatus = false then
      (s2, some (.httpStatusError env.libStatus (libURL key)))
    else if env.libContentType ≠ "application/octet-stream" then
      (s2, some (.valueError ("Invalid content type: " ++ env.libContentType)))
    else
      andThen (writeFileFS env libFilePath env.libBytes s2) (fun s3 =>
        shutilCopy libFilePath dlLibPath s3)

/-- FirmwareUpdater.update_firmware: discard the old backup if present,
rename the installed tree to the backup path if present, rename the
staged tree onto the install path. -/
def update_firmware (env : Env) (s : St) : StepR :=
  andThen
    (if (lookupFS s.fs backupPath).isSome then shutilRmtree env backupPath s
     else (s, none))
    (fun s1 =>
      andThen
        (if (lookupFS s1.fs firmwarePath).isSome then
           shutilMove env firmwarePath backupPath s1
         else (s1, none))
        (fun s2 => shutilMove env stagedPath firmwarePath s2))

/-- FirmwareUpdater.set_permissions: the os.walk loop chmods every
directory and file below the install path to 0o755. -/
def set_permissions (s : St) : StepR :=
  ({ s with fs := chmodTree firmwarePath 0o755 s.fs }, none)

/-- FirmwareUpdater.setup_directories: best-effort creation of the kvm
runtime directory and /etc/kvm. -/
def setup_directories (env : Env) (s : St) : St :=
  safe_mkdir env etcKvmPath (safe_mkdir env kvmDirPath s)

/-- The fixed list of stale paths removed by cleanup_files. -/
def pathsToClean : List Path :=
  [["tmp", "kvm_system"], ["tmp", "server"],
   ["etc", "init.d", "S02udisk"], ["etc", "init.d", "S30wifi"],
   kvmStreamPath]

/-- FirmwareUpdater.cleanup_files: best-effort removal of each stale
path. -/
def cleanup_files (env : Env) (s : St) : St :=
  pathsToClean.foldl (fun st p => safe_remove env p st) s

/-- FirmwareUpdater.handle_kernel_modules: four best-effort shell
commands. -/
def handle_kernel_modules (s : St) : St :=
  safe_execute "insmod /mnt/system/ko/i2c-gpio.ko 2>/dev/null || true"
    (safe_execute "insmod /mnt/system/ko/i2c-algo-bit.ko 2>/dev/null || true"
      (safe_execute "rmmod i2c_algo_bit 2>/dev/null || true"
        (safe_execute "rmmod i2c_gpio 2>/dev/null || true" s)))

/-- Reading and logging the installed version; a read failure
propagates. -/
def readVersionStep (s : St) : StepR :=
  match read_file versionPath s with
  | (s1, .ok _) => (s1, none)
  | (s1, .error e) => (s1, some e)

/-- The try-block of FirmwareUpdater.update up to and including
handle_kernel_modules. -/
def updatePipeline (env : Env) (s : St) : StepR :=
  andThen (service_control env "stop" s) (fun s1 =>
  andThen (mkdir env s1) (fun s2 =>
  andThen (download_firmware env s2) (fun s3 =>
  andThen (download_lib env s3) (fun s4 =>
  andThen (update_firmware env s4) (fun s5 =>
  andThen (set_permissions s5) (fun s6 =>
    let s7 := setup_directories env s6
    let s8 := cleanup_files env s7
    ((handle_kernel_modules s8), none)))))))

/-- The whole try-block of FirmwareUpdater.update: the pipeline, then
the version read, then the detached service restart. -/
def updateBody (env : Env) (s : St) : StepR :=
  andThen (updatePipeline env s) (fun s9 =>
  andThen (readVersionStep s9) (fun s10 =>
  service_control env "restart" s10))

/-- The finally-block of FirmwareUpdater.update: a plain rmtree of the
cache directory when it exists (an exception here aborts the rest of the
block and propagates), then the detached killall, then cleanup_files. -/
def finallyBlock (env : Env) (s : St) : StepR :=
  match
    (if (lookupFS s.fs temporaryPath).isSome then shutilRmtree env temporaryPath s
     else (s, none)) with
  | (s1, some e) => (s1, some e)
  | (s1, none) =>
    let s2 : St := { s1 with trace := s1.trace ++ [.killallNanoKVM] }
    (cleanup_files env s2, none)

/-- State after the try and except parts of update: when the body
raised, the except clause logs the failure before re-raising. -/
def postBody (env : Env) (s : St) : St :=
  match updateBody env s with
  | (s1, some _) => { s1 with trace := s1.trace ++ [.logError "Update failed"] }
  | (s1, none) => s1

/-- FirmwareUpdater.update: run the body; on an exception log it and
re-raise; always run the finally-block, whose own exception, if any,
replaces the original one. -/
def update (env : Env) (s : St) : StepR :=
  ((finallyBlock env (postBody env s)).1,
   (finallyBlock env (postBody env s)).2 <|> (updateBody env s).2)

/-- The main entry point: exit code 0 on success, 1 on any unrecovered
exception. -/
def mainExit (env : Env) (s : St) : Nat × St :=
  let r := update env s
  ((match r.2 with | some _ => 1 | none => 0), r.1)

/-- The message a raised exception prints, as the log line shows it. -/
def errMsg : Err → String
  | .runtimeError m => m
  | .httpStatusError st url => toString st ++ " Client Error: error for url: " ++ url
  | .valueError m => m
  | .badZipFile => "File is not a zip file"
  | .fileNotFoundError _ => "No such file or directory"
  | .fileExistsError _ => "File exists"
  | .isADirectoryError _ => "Is a directory"
  | .notADirectoryError _ => "Not a directory"
  | .osError _ => "Permission denied"

/-- Whether the first list starts the second. -/
def segStarts : List Char → List Char → Bool
  | [], _ => true
  | _ :: _, [] => false
  | a :: as, b :: bs => a == b && segStarts as bs

/-- Whether the first list occurs contiguously inside the second. -/
def segIn (sub : List Char) : List Char → Bool
  | [] => segStarts sub []
  | b :: bs => segStarts sub (b :: bs) || segIn sub bs

/-- Whether sub occurs as a substring of m. -/
def msgIncludes (sub m : String) : Bool := segIn sub.toList m.toList

/-- The staging path holds a directory. -/
def TmpDir (fs : FS) : Prop := ∃ d, lookupFS fs temporaryPath = some (.dir d)

/-- The staging path is absent or a directory (never a plain file). -/
def TmpOK (fs : FS) : Prop := lookupFS fs temporaryPath = none ∨ TmpDir fs

/-- Every entry below the install path has bits 0o755, except possibly a
kvm directory created by setup_directories with the umask-masked default
mode. -/
def PermOK (env : Env) (fs : FS) : Prop :=
  ∀ q n, isUnder firmwarePath q = true → lookupFS fs q = some n →
    nodePerm n = 0o755 ∨ (q = kvmDirPath ∧ n = Node.dir (freshDirMode env))

/-! Concrete run fixtures used by witnesses and counterexamples. -/

/-- A well-formed firmware archive with the expected layout, including a
stale kvm_stream file. -/
def archHappy : Archive :=
  { wellFormed := true,
    entries :=
      [{ nameParts := ["latest"], isDirEntry := true, contents := "" },
       { nameParts := ["latest", "kvm"], isDirEntry := true, contents := "" },
       { nameParts := ["latest", "kvm_system"], isDirEntry := true, contents := "" },
       { nameParts := ["latest", "kvm_system", "dl_lib"], isDirEntry := true, contents := "" },
       { nameParts := ["latest", "kvm_system", "kvm_stream"], isDirEntry := false,
         contents := "S" },
       { nameParts := ["latest", "version"], isDirEntry := false, contents := " 1.2 " }] }

/-- A device state before a run: installed tree with a version file and
a stale stream file, one old backup generation, a device key. -/
def fsHappy : FS :=
  [(["root"], .dir 0o755),
   (["kvmapp"], .dir 0o755),
   (["kvmapp", "version"], .file "0.9" 0o644),
   (["kvmapp", "kvm_system"], .dir 0o755),
   (["kvmapp", "kvm_system", "kvm_stream"], .file "oldstream" 0o755),
   (["root", "old"], .dir 0o755),
   (["root", "old", "stale"], .file "b" 0o644),
   (["device_key"], .file "KEY" 0o644),
   (["etc"], .dir 0o755),
   (["tmp"], .dir 0o777)]

/-- An environment in which every step succeeds. -/
def envHappy : Env :=
  { now := 7, umask := 0o022, stopExitCode := 0,
    fwStatus := 200, fwContentType := "application/zip", fwBody := "ZB",
    fwArchive := archHappy,
    libStatus := 200, libContentType := "application/octet-stream", libBytes := "LB",
    failRemove := [], failMove := [] }

/-- The happy-path initial state. -/
def stHappy : St := { fs := fsHappy, trace := [] }

/-- The state just after staging completes (after download_lib), i.e.
the staged tree at promotion time in the happy run. -/
def stagedSnapshot : St :=
  (download_lib envHappy (download_firmware envHappy (mkdir envHappy
    (service_control envHappy "stop" stHappy).1).1).1).1

/-- The firmware response carries a non-zip content type. -/
def envBadCT : Env := { envHappy with fwContentType := "text/html" }

/-- Bad content type and an injected EACCES on removing the staging
area. -/
def envC3 : Env := { envBadCT with failRemove := [temporaryPath] }

/-- The service stop command exits non-zero. -/
def envStopFail : Env := { envHappy with stopExitCode := 1 }

/-- The archive without its version file. -/
def archNoVer : Archive :=
  { wellFormed := true,
    entries := archHappy.entries.filter (fun e => decide (e.nameParts ≠ ["latest", "version"])) }

/-- Environment whose archive lacks the version file. -/
def envNoVer : Env := { envHappy with fwArchive := archNoVer }

/-- An archive holding one entry whose name climbs out with a
parent-directory reference. -/
def archTraversal : Archive :=
  { wellFormed := true,
    entries := [{ nameParts := ["..", "evil"], isDirEntry := false, contents := "E" }] }

/-- Environment serving the traversal archive. -/
def envTraversal : Env := { envHappy with fwArchive := archTraversal }

/-- A state in which the staging directory already exists, for running
download_firmware directly. -/
def stWithTmp : St := { fs := insertNode temporaryPath (.dir 0o755) fsHappy, trace := [] }

/-- The archive without the kvm_system/dl_lib directory. -/
def archNoDl : Archive :=
  { wellFormed := true,
    entries := archHappy.entries.filter
      (fun e => decide (e.nameParts ≠ ["latest", "kvm_system", "dl_lib"])) }

/-- A staged state whose tree has kvm_system but no dl_lib below it. -/
def fsNoDl : FS :=
  [(["root"], .dir 0o755),
   (temporaryPath, .dir 0o755),
   (stagedPath, .dir 0o755),
   (stagedPath ++ ["kvm_system"], .dir 0o755),
   (["device_key"], .file "KEY" 0o644)]

/-- State for the download_lib run with dl_lib missing. -/
def stNoDl : St := { fs := fsNoDl, trace := [] }

/-- The archive without the kvm directory. -/
def archNoKvm : Archive :=
  { wellFormed := true,
    entries := archHappy.entries.filter (fun e => decide (e.nameParts ≠ ["latest", "kvm"])) }

/-- Zero umask and an archive lacking the kvm directory. -/
def envUmask0 : Env := { envHappy with umask := 0, fwArchive := archNoKvm }

/-- The firmware endpoint answers 404 with an html body. -/
def env404 : Env := { envHappy with fwStatus := 404, fwContentType := "text/html" }

/-- An injected rename failure on the installed tree. -/
def envMoveFail : Env := { envHappy with failMove := [firmwarePath] }

/-- A pre-promotion state: the device state plus a staged tree. -/
def stC10 : St := { fs := insertNode stagedPath (.dir 0o755) fsHappy, trace := [] }

/-! Basic lemmas about paths and the filesystem primitives. -/

theorem segStarts_self (l : List Char) : segStarts l l = true := by
  induction l with
  | nil => rfl
  | cons a as ih => simp [segStarts, ih]

theorem segIn_append_left (pre sub : List Char) : segIn sub (pre ++ sub) = true := by
  induction pre with
  | nil =>
    cases sub with
    | nil => rfl
    | cons a as => simp [segIn, segStarts_self]
  | cons c cs ih => simp [segIn, ih]

/-- A string always occurs inside a string obtained by appending it to
the right of another. -/
theorem msgIncludes_append (pre sub : String) : msgIncludes sub (pre ++ sub) = true := by
  simp [msgIncludes, String.toList, String.data_append, segIn_append_left]

theorem isUnder_append_self (p r : Path) : isUnder p (p ++ r) = true := by
  induction p with
  | nil => rfl
  | cons a as ih => simp [isUnder, ih]

theorem isUnder_refl (p : Path) : isUnder p p = true := by
  have := isUnder_append_self p []
  simpa using this

theorem eq_append_drop_of_isUnder {root q : Path} (h : isUnder root q = true) :
    q = root ++ q.drop root.length := by
  induction root generalizing q with
  | nil => simp
  | cons a as ih =>
    cases q with
    | nil => simp [isUnder] at h
    | cons b bs =>
      simp only [isUnder, Bool.and_eq_true, beq_iff_eq] at h
      obtain ⟨rfl, h2⟩ := h
      simpa using ih h2

theorem isUnder_of_append_isUnder {p r q : Path} (h : isUnder (p ++ r) q = true) :
    isUnder p q = true := by
  induction p generalizing q with
  | nil => rfl
  | cons a as ih =>
    cases q with
    | nil => simp [isUnder] at h
    | cons b bs =>
      simp only [List.cons_append, isUnder, Bool.and_eq_true] at h ⊢
      exact ⟨h.1, ih h.2⟩

theorem isUnder_comparable {p₁ p₂ q : Path} (h₁ : isUnder p₁ q = true)
    (h₂ : isUnder p₂ q = true) : isUnder p₁ p₂ = true ∨ isUnder p₂ p₁ = true := by
  induction q generalizing p₁ p₂ with
  | nil =>
    cases p₁ with
    | nil => exact Or.inl rfl
    | cons a as => simp [isUnder] at h₁
  | cons b bs ih =>
    cases p₁ with
    | nil => exact Or.inl rfl
    | cons a as =>
      cases p₂ with
      | nil => exact Or.inr rfl
      | cons c cs =>
        simp only [isUnder, Bool.and_eq_true, beq_iff_eq] at h₁ h₂ ⊢
        rcases ih h₁.2 h₂.2 with h | h
        · exact Or.inl ⟨h₁.1.trans h₂.1.symm, h⟩
        · exact Or.inr ⟨h₂.1.trans h₁.1.symm, h⟩

theorem lookupFS_insert (p : Path) (n : Node) (fs : FS) (q : Path) :
    lookupFS (insertNode p n fs) q = if p = q then some n else lookupFS fs q := by
  simp [insertNode, lookupFS]

theorem lookupFS_removeTree (root : Path) (fs : FS) (q : Path) :
    lookupFS (removeTree root fs) q =
      if isUnder root q = true then none else lookupFS fs q := by
  induction fs with
  | nil => by_cases hq : isUnder root q = true <;> simp [removeTree, lookupFS, hq]
  | cons e t ih =>
    by_cases hk : isUnder root e.1 = true
    · have hr : removeTree root (e :: t) = removeTree root t := by
        simp [removeTree, List.filter_cons, hk]
      rw [hr, ih]
      by_cases hq : isUnder root q = true
      · simp [hq]
      · have hne : e.1 ≠ q := fun h => hq (h ▸ hk)
        simp [hq, lookupFS, hne]
    · have hr : removeTree root (e :: t) = e :: removeTree root t := by
        simp [removeTree, List.filter_cons, hk]
      rw [hr]
      by_cases he : e.1 = q
      · have hq : isUnder root q = false := by
          cases h : isUnder root q
          · rfl
          · exact absurd (he ▸ h) hk
        simp [lookupFS, he, hq]
      · simp only [lookupFS, he, if_false, ih]

theorem lookupFS_chmodTree (root : Path) (m : Nat) (fs : FS) (q : Path) :
    lookupFS (chmodTree root m fs) q =
      if isUnder root q = true then (lookupFS fs q).map (fun n => setPerm n m)
      else lookupFS fs q := by
  induction fs with
  | nil => by_cases hq : isUnder root q = true <;> simp [chmodTree, lookupFS, hq]
  | cons e t ih =>
    by_cases hk : isUnder root e.1 = true
    · have hr : chmodTree root m (e :: t) = (e.1, setPerm e.2 m) :: chmodTree root m t := by
        simp [chmodTree, hk]
      rw [hr]
      by_cases he : e.1 = q
      · have hq : isUnder root q = true := he ▸ hk
        simp [lookupFS, he, hq]
      · simp only [lookupFS, he, if_false, ih]
    · have hr : chmodTree root m (e :: t) = e :: chmodTree root m t := by
        simp [chmodTree, hk]
      rw [hr]
      by_cases he : e.1 = q
      · have hq : isUnder root q = false := by
          cases h : isUnder root q
          · rfl
          · exact absurd (he ▸ h) hk
        simp [lookupFS, he, hq]
      · simp only [lookupFS, he, if_false, ih]

theorem lookupFS_cons_none {e : Path × Node} {t : FS} {p : Path}
    (h : lookupFS (e :: t) p = none) : e.1 ≠ p ∧ lookupFS t p = none := by
  by_cases he : e.1 = p
  · simp [lookupFS, he] at h
  · refine ⟨he, ?_⟩
    simpa [lookupFS, he] using h

theorem lookupFS_relocate_moved (src dst : Path) (fs : FS)
    (hclean : ∀ x, lookupFS fs (dst ++ x) = none) (r : Path) :
    lookupFS (relocate src dst fs) (dst ++ r) = lookupFS fs (src ++ r) := by
  induction fs with
  | nil => rfl
  | cons e t ih =>
    have hcleanT : ∀ x, lookupFS t (dst ++ x) = none :=
      fun x => (lookupFS_cons_none (hclean x)).2
    have hne : e.1 ≠ dst ++ r := (lookupFS_cons_none (hclean r)).1
    by_cases hu : isUnder src e.1 = true
    · have hd : e.1 = src ++ e.1.drop src.length := eq_append_drop_of_isUnder hu
      have hrel : relocate src dst (e :: t)
          = (dst ++ e.1.drop src.length, e.2) :: relocate src dst t := by
        simp [relocate, hu]
      rw [hrel]
      by_cases hdr : e.1.drop src.length = r
      · rw [← hdr]
        have h1 : lookupFS ((dst ++ e.1.drop src.length, e.2) :: relocate src dst t)
            (dst ++ e.1.drop src.length) = some e.2 := by simp [lookupFS]
        have h2 : lookupFS (e :: t) (src ++ e.1.drop src.length) = some e.2 := by
          rw [← hd]; simp [lookupFS]
        rw [h1, h2]
      · have h1 : dst ++ e.1.drop src.length ≠ dst ++ r := by
          intro h; exact hdr (List.append_cancel_left h)
        have h2 : e.1 ≠ src ++ r := by
          rw [hd]; intro h; exact hdr (List.append_cancel_left h)
        simp only [lookupFS, h1, h2, if_false]
        exact ih hcleanT
    · have hrel : relocate src dst (e :: t) = e :: relocate src dst t := by
        simp [relocate, hu]
      rw [hrel]
      have h2 : e.1 ≠ src ++ r := by
        intro h
        rw [h] at hu
        exact hu (isUnder_append_self src r)
      simp only [lookupFS, hne, h2, if_false]
      exact ih hcleanT

theorem lookupFS_relocate_frame (src dst : Path) (fs : FS) {q : Path}
    (hqs : isUnder src q = false) (hqd : isUnder dst q = false) :
    lookupFS (relocate src dst fs) q = lookupFS fs q := by
  induction fs with
  | nil => rfl
  | cons e t ih =>
    by_cases hu : isUnder src e.1 = true
    · have hrel : relocate src dst (e :: t)
          = (dst ++ e.1.drop src.length, e.2) :: relocate src dst t := by
        simp [relocate, hu]
      rw [hrel]
      have h1 : dst ++ e.1.drop src.length ≠ q := by
        intro h
        rw [← h] at hqd
        rw [isUnder_append_self dst _] at hqd
        exact Bool.true_eq_false.mp hqd
      have h2 : e.1 ≠ q := by
        intro h
        rw [h, hqs] at hu
        exact Bool.false_ne_true hu
      simp only [lookupFS, h1, h2, if_false, ih]
    · have hrel : relocate src dst (e :: t) = e :: relocate src dst t := by
        simp [relocate, hu]
      rw [hrel]
      by_cases he : e.1 = q <;> simp [lookupFS, he, ih]

theorem lookupFS_relocate_src (src dst : Path) (fs : FS)
    (hsd : isUnder src dst = false) (hds : isUnder dst src = false) (r : Path) :
    lookupFS (relocate src dst fs) (src ++ r) = none := by
  induction fs with
  | nil => rfl
  | cons e t ih =>
    by_cases hu : isUnder src e.1 = true
    · have hrel : relocate src dst (e :: t)
          = (dst ++ e.1.drop src.length, e.2) :: relocate src dst t := by
        simp [relocate, hu]
      rw [hrel]
      have h1 : dst ++ e.1.drop src.length ≠ src ++ r := by
        intro h
        have ha : isUnder dst (src ++ r) = true := by
          rw [← h]; exact isUnder_append_self dst _
        have hb : isUnder src (src ++ r) = true := isUnder_append_self src r
        rcases isUnder_comparable ha hb with hc | hc
        · rw [hds] at hc; exact Bool.false_ne_true hc
        · rw [hsd] at hc; exact Bool.false_ne_true hc
      simp only [lookupFS, h1, if_false]
      exact ih
    · have hrel : relocate src dst (e :: t) = e :: relocate src dst t := by
        simp [relocate, hu]
      rw [hrel]
      have h2 : e.1 ≠ src ++ r := by
        intro h
        rw [h] at hu
        exact hu (isUnder_append_self src r)
      simp only [lookupFS, h2, if_false]
      exact ih

theorem makedirsE_frame (env : Env) (comps : List String) (fs : FS) (done : Path)
    {q : Path} (hq : isUnder done q = false) :
    lookupFS (makedirsE env fs done comps).1 q = lookupFS fs q := by
  induction comps generalizing fs done with
  | nil => rfl
  | cons c rest ih =>
    have hq1 : isUnder (done ++ [c]) q = false := by
      cases h : isUnder (done ++ [c]) q
      · rfl
      · rw [isUnder_of_append_isUnder h] at hq
        exact hq
    have hne : done ++ [c] ≠ q := by
      intro h
      rw [← h, isUnder_append_self done [c]] at hq
      exact Bool.true_eq_false.mp hq
    cases hl : lookupFS fs (done ++ [c]) with
    | none =>
      simp only [makedirsE, hl]
      rw [ih _ _ hq1, lookupFS_insert]
      simp [hne]
    | some n =>
      cases n with
      | dir d =>
        simp only [makedirsE, hl]
        exact ih _ _ hq1
      | file c0 m0 =>
        simp only [makedirsE, hl]

theorem makedirsE_preserve (env : Env) (comps : List String) (fs : FS) (done : Path)
    {q : Path} {n : Node} (h : lookupFS fs q = some n) :
    lookupFS (makedirsE env fs done comps).1 q = some n := by
  induction comps generalizing fs done with
  | nil => exact h
  | cons c rest ih =>
    cases hl : lookupFS fs (done ++ [c]) with
    | none =>
      simp only [makedirsE, hl]
      have hne : done ++ [c] ≠ q := by
        intro he
        rw [he, h] at hl
        exact Option.noConfusion hl
      refine ih _ _ ?_
      rw [lookupFS_insert]
      simp [hne, h]
    | some n0 =>
      cases n0 with
      | dir d => simp only [makedirsE, hl]; exact ih _ _ h
      | file c0 m0 => simp only [makedirsE, hl]; exact h

theorem makedirsE_lookup (env : Env) (comps : List String) (fs : FS) (done : Path)
    (q : Path) :
    lookupFS (makedirsE env fs done comps).1 q = lookupFS fs q ∨
    (lookupFS fs q = none ∧ isUnder done q = true ∧ isUnder q (done ++ comps) = true ∧
     lookupFS (makedirsE env fs done comps).1 q = some (.dir (freshDirMode env))) := by
  induction comps generalizing fs done with
  | nil => exact Or.inl rfl
  | cons c rest ih =>
    have hassoc : (done ++ [c]) ++ rest = done ++ (c :: rest) := by simp
    cases hl : lookupFS fs (done ++ [c]) with
    | none =>
      simp only [makedirsE, hl]
      rcases ih (insertNode (done ++ [c]) (.dir (freshDirMode env)) fs) (done ++ [c]) with h | h
      · rw [h, lookupFS_insert]
        by_cases he : done ++ [c] = q
        · refine Or.inr ⟨?_, ?_, ?_, ?_⟩
          · rw [← he]; exact hl
          · rw [← he]; exact isUnder_append_self done [c]
          · rw [← he, ← hassoc]; exact isUnder_append_self (done ++ [c]) rest
          · simp [he]
        · rw [if_neg he]; exact Or.inl rfl
      · obtain ⟨h0, h1, h2, h3⟩ := h
        rw [lookupFS_insert] at h0
        by_cases he : done ++ [c] = q
        · simp [he] at h0
        · rw [if_neg he] at h0
          exact Or.inr ⟨h0, isUnder_of_append_isUnder h1, hassoc ▸ h2, h3⟩
    | some n0 =>
      cases n0 with
      | dir d =>
        simp only [makedirsE, hl]
        rcases ih fs (done ++ [c]) with h | h
        · exact Or.inl h
        · obtain ⟨h0, h1, h2, h3⟩ := h
          exact Or.inr ⟨h0, isUnder_of_append_isUnder h1, hassoc ▸ h2, h3⟩
      | file c0 m0 =>
        left
        simp [makedirsE, hl]

/-! Trace lemmas: which events each step appends. -/

theorem if_isSome_pos {α : Sort _} {o : Option Node} (h : o.isSome = true) {a b : α} :
    (if o.isSome = true then a else b) = a := by
  rw [h]
  exact if_pos rfl

theorem if_isSome_neg {α : Sort _} {o : Option Node} (h : o.isSome = false) {a b : α} :
    (if o.isSome = true then a else b) = b := by
  rw [h]
  exact if_neg Bool.false_ne_true

theorem writeFileFS_trace (env : Env) (p : Path) (c : String) (s : St) :
    (writeFileFS env p c s).1.trace = s.trace := by
  unfold writeFileFS
  split <;> try rfl
  split <;> rfl

theorem mkdirSingle_trace (env : Env) (p : Path) (s : St) :
    (mkdirSingle env p s).1.trace = s.trace := by
  unfold mkdirSingle
  split <;> try rfl
  split <;> rfl

theorem shutilRmtree_trace (env : Env) (p : Path) (s : St) :
    (shutilRmtree env p s).1.trace = s.trace := by
  unfold shutilRmtree
  split <;> try rfl
  split <;> rfl

theorem shutilMove_trace (env : Env) (src dst : Path) (s : St) :
    (shutilMove env src dst s).1.trace = s.trace := by
  unfold shutilMove
  split
  · rfl
  · split <;> rfl

theorem shutilCopy_trace (src dst : Path) (s : St) :
    (shutilCopy src dst s).1.trace = s.trace := by
  unfold shutilCopy
  split <;> try rfl
  split <;> try rfl
  split <;> rfl

theorem mkdir_trace (env : Env) (s : St) :
    (mkdir env s).1.trace = s.trace := by
  unfold mkdir
  cases ht : (lookupFS s.fs temporaryPath).isSome with
  | true =>
    rw [if_pos rfl]
    cases h0 : shutilRmtree env temporaryPath s with
    | mk sa ea =>
      have hta : sa.trace = s.trace := by
        have h1 := shutilRmtree_trace env temporaryPath s
        rw [h0] at h1
        exact h1
      cases ea with
      | none =>
        simp only [andThen]
        rw [mkdirSingle_trace, hta]
      | some e =>
        simp only [andThen]
        exact hta
  | false =>
    rw [if_neg Bool.false_ne_true]
    simp only [andThen]
    rw [mkdirSingle_trace]

theorem safe_remove_trace (env : Env) (p : Path) (s : St) :
    (safe_remove env p s).trace = s.trace := by
  unfold safe_remove
  split <;> rfl

theorem safe_mkdir_trace (env : Env) (p : Path) (s : St) :
    (safe_mkdir env p s).trace = s.trace := rfl

theorem extractMember_trace (env : Env) (destRoot : Path) (m : ZipEntry) (s : St) :
    (extractMember env destRoot m s).1.trace = s.trace := by
  unfold extractMember
  cases h0 : makedirsE env s.fs [] (extractTarget destRoot m).dropLast with
  | mk fs1 e1 =>
    cases e1 with
    | some e => rfl
    | none =>
      cases hd : m.isDirEntry with
      | true =>
        dsimp only
        rw [if_pos rfl]
        split <;> try rfl
        split <;> rfl
      | false =>
        dsimp only
        rw [if_neg Bool.false_ne_true]
        rw [writeFileFS_trace]

theorem extractAll_trace (env : Env) (destRoot : Path) (ms : List ZipEntry) (s : St) :
    (extractAll env destRoot ms s).1.trace = s.trace := by
  induction ms generalizing s with
  | nil => rfl
  | cons m rest ih =>
    show (andThen (extractMember env destRoot m s) (extractAll env destRoot rest)).1.trace = _
    cases h0 : extractMember env destRoot m s with
    | mk sa ea =>
      have hta : sa.trace = s.trace := by
        have h1 := extractMember_trace env destRoot m s
        rw [h0] at h1
        exact h1
      cases ea with
      | none => simp only [andThen]; rw [ih, hta]
      | some e => simp only [andThen]; exact hta

/-! Sequencing lemmas. -/

theorem andThen_none {r : StepR} {k : St → StepR} (h : (andThen r k).2 = none) :
    r.2 = none ∧ (k r.1).2 = none ∧ andThen r k = k r.1 := by
  cases r with
  | mk s e =>
    cases e with
    | none => exact ⟨rfl, h, rfl⟩
    | some e0 => exact absurd h (by simp [andThen])

theorem andThen_pres (P : St → Prop) (r : StepR) (k : St → StepR)
    (h1 : P r.1) (h2 : ∀ s, P s → P (k s).1) : P (andThen r k).1 := by
  cases r with
  | mk s e =>
    cases e with
    | none => exact h2 s h1
    | some e0 => exact h1

/-! Frame lemmas: which paths each filesystem step can change. -/

theorem writeFileFS_frame (env : Env) (p : Path) (c : String) (s : St) {q : Path}
    (hq : p ≠ q) : lookupFS (writeFileFS env p c s).1.fs q = lookupFS s.fs q := by
  unfold writeFileFS
  split
  · rfl
  · show lookupFS (insertNode p _ s.fs) q = _
    rw [lookupFS_insert, if_neg hq]
  · split
    · show lookupFS (insertNode p _ s.fs) q = _
      rw [lookupFS_insert, if_neg hq]
    · rfl

theorem mkdirSingle_frame (env : Env) (p : Path) (s : St) {q : Path}
    (hq : p ≠ q) : lookupFS (mkdirSingle env p s).1.fs q = lookupFS s.fs q := by
  unfold mkdirSingle
  split
  · rfl
  · rfl
  · split
    · show lookupFS (insertNode p _ s.fs) q = _
      rw [lookupFS_insert, if_neg hq]
    · rfl

theorem shutilRmtree_frame (env : Env) (p : Path) (s : St) {q : Path}
    (hq : isUnder p q = false) :
    lookupFS (shutilRmtree env p s).1.fs q = lookupFS s.fs q := by
  unfold shutilRmtree
  split
  · rfl
  · rfl
  · split
    · rfl
    · show lookupFS (removeTree p s.fs) q = _
      rw [lookupFS_removeTree]
      simp [hq]

theorem safe_remove_frame (env : Env) (p : Path) (s : St) {q : Path}
    (hq : isUnder p q = false) :
    lookupFS (safe_remove env p s).fs q = lookupFS s.fs q := by
  unfold safe_remove
  split
  · rfl
  · show lookupFS (removeTree p s.fs) q = _
    rw [lookupFS_removeTree]
    simp [hq]

theorem safe_remove_keeps_some (env : Env) (p : Path) (s : St) {q : Path} {n : Node}
    (h : lookupFS (safe_remove env p s).fs q = some n) : lookupFS s.fs q = some n := by
  revert h
  unfold safe_remove
  split
  · exact id
  · show lookupFS (removeTree p s.fs) q = some n → _
    rw [lookupFS_removeTree]
    split
    · intro h; exact absurd h (by simp)
    · exact id

theorem realDst_isUnder (fs : FS) (src dst : Path) :
    isUnder dst (realDst fs src dst) = true := by
  unfold realDst
  split
  · exact isUnder_append_self dst _
  · exact isUnder_refl dst

theorem isUnder_of_realDst {fs : FS} {src dst q : Path}
    (h : isUnder (realDst fs src dst) q = true) : isUnder dst q = true := by
  revert h
  unfold realDst
  split
  · exact fun h => isUnder_of_append_isUnder h
  · exact id

theorem shutilMove_frame (env : Env) (src dst : Path) (s : St) {q : Path}
    (hqs : isUnder src q = false) (hqd : isUnder dst q = false) :
    lookupFS (shutilMove env src dst s).1.fs q = lookupFS s.fs q := by
  have hqr : isUnder (realDst s.fs src dst) q = false := by
    cases h : isUnder (realDst s.fs src dst) q
    · rfl
    · rw [isUnder_of_realDst h] at hqd
      exact hqd
  unfold shutilMove
  split
  · rfl
  · split
    · rfl
    · show lookupFS (relocate src (realDst s.fs src dst)
        (removeTree (realDst s.fs src dst) s.fs)) q = _
      rw [lookupFS_relocate_frame _ _ _ hqs hqr, lookupFS_removeTree]
      simp [hqr]

theorem shutilCopy_frame (src dst : Path) (s : St) {q : Path}
    (hqd : isUnder dst q = false) :
    lookupFS (shutilCopy src dst s).1.fs q = lookupFS s.fs q := by
  have hne : realDst s.fs src dst ≠ q := by
    intro h
    have := realDst_isUnder s.fs src dst
    rw [h, hqd] at this
    exact Bool.false_ne_true this
  unfold shutilCopy
  split
  · split
    · rfl
    · show lookupFS (insertNode (realDst s.fs src dst) _ s.fs) q = _
      rw [lookupFS_insert, if_neg hne]
    · split
      · show lookupFS (insertNode (realDst s.fs src dst) _ s.fs) q = _
        rw [lookupFS_insert, if_neg hne]
      · rfl
  · rfl

theorem set_permissions_frame (s : St) (q : Path)
    (hq : isUnder firmwarePath q = false) :
    lookupFS (set_permissions s).1.fs q = lookupFS s.fs q := by
  show lookupFS (chmodTree firmwarePath 0o755 s.fs) q = _
  rw [lookupFS_chmodTree]
  simp [hq]

theorem safe_mkdir_frame (env : Env) (p : Path) (s : St) {q : Path}
    (hq : isUnder q p = false) :
    lookupFS (safe_mkdir env p s).fs q = lookupFS s.fs q := by
  rcases makedirsE_lookup env p s.fs [] q with h | h
  · exact h
  · rw [List.nil_append] at h
    rw [h.2.2.1] at hq
    exact absurd hq Bool.true_eq_false.mp

theorem safe_mkdir_keeps_some (env : Env) (p : Path) (s : St) {q : Path} {n : Node}
    (h : lookupFS s.fs q = some n) : lookupFS (safe_mkdir env p s).fs q = some n :=
  makedirsE_preserve env p s.fs [] h

theorem cleanup_files_eq (env : Env) (s : St) :
    cleanup_files env s =
      safe_remove env kvmStreamPath
        (safe_remove env ["etc", "init.d", "S30wifi"]
          (safe_remove env ["etc", "init.d", "S02udisk"]
            (safe_remove env ["tmp", "server"]
              (safe_remove env ["tmp", "kvm_system"] s)))) := rfl

theorem cleanup_files_trace (env : Env) (s : St) :
    (cleanup_files env s).trace = s.trace := by
  rw [cleanup_files_eq, safe_remove_trace, safe_remove_trace, safe_remove_trace,
    safe_remove_trace, safe_remove_trace]

theorem cleanup_files_frame (env : Env) (s : St) (q : Path)
    (h1 : isUnder ["tmp", "kvm_system"] q = false)
    (h2 : isUnder ["tmp", "server"] q = false)
    (h3 : isUnder ["etc", "init.d", "S02udisk"] q = false)
    (h4 : isUnder ["etc", "init.d", "S30wifi"] q = false)
    (h5 : isUnder kvmStreamPath q = false) :
    lookupFS (cleanup_files env s).fs q = lookupFS s.fs q := by
  rw [cleanup_files_eq, safe_remove_frame _ _ _ h5, safe_remove_frame _ _ _ h4,
    safe_remove_frame _ _ _ h3, safe_remove_frame _ _ _ h2, safe_remove_frame _ _ _ h1]

theorem cleanup_files_keeps_some (env : Env) (s : St) {q : Path} {n : Node}
    (h : lookupFS (cleanup_files env s).fs q = some n) : lookupFS s.fs q = some n := by
  rw [cleanup_files_eq] at h
  exact safe_remove_keeps_some _ _ _ (safe_remove_keeps_some _ _ _
    (safe_remove_keeps_some _ _ _ (safe_remove_keeps_some _ _ _
      (safe_remove_keeps_some _ _ _ h))))

theorem setup_directories_trace (env : Env) (s : St) :
    (setup_directories env s).trace = s.trace := rfl

theorem handle_kernel_modules_fs (s : St) : (handle_kernel_modules s).fs = s.fs := rfl

theorem read_file_fs (p : Path) (s : St) : (read_file p s).1.fs = s.fs := by
  unfold read_file
  split <;> rfl

theorem readVersionStep_fs (s : St) : (readVersionStep s).1.fs = s.fs := by
  unfold readVersionStep
  cases h0 : read_file versionPath s with
  | mk s1 r =>
    have h1 : s1.fs = s.fs := by
      have h2 := read_file_fs versionPath s
      rw [h0] at h2
      exact h2
    cases r with
    | ok v => exact h1
    | error e => exact h1

theorem service_control_fs (env : Env) (action : String) (s : St) :
    (service_control env action s).1.fs = s.fs := by
  unfold service_control
  split
  · split <;> rfl
  · rfl

/-! Disjointness of the fixed path spaces, closed under extension. -/

theorem under_bk_fw (r : Path) : isUnder backupPath (firmwarePath ++ r) = false := rfl

theorem under_bk_st (r : Path) : isUnder backupPath (stagedPath ++ r) = false := rfl

theorem under_fw_bk (r : Path) : isUnder firmwarePath (backupPath ++ r) = false := rfl

theorem under_fw_st (r : Path) : isUnder firmwarePath (stagedPath ++ r) = false := rfl

theorem under_st_bk (r : Path) : isUnder stagedPath (backupPath ++ r) = false := rfl

theorem under_st_fw (r : Path) : isUnder stagedPath (firmwarePath ++ r) = false := rfl

theorem under_tmp_bk (r : Path) : isUnder temporaryPath (backupPath ++ r) = false := rfl

theorem under_tmp_fw (r : Path) : isUnder temporaryPath (firmwarePath ++ r) = false := rfl

theorem under_ks_fw (r : Path) : isUnder kvmStreamPath (firmwarePath ++ r) =
    isUnder ["kvm_system", "kvm_stream"] r := by
  show (("kvmapp" == "kvmapp") && isUnder ["kvm_system", "kvm_stream"] r) = _
  rw [beq_self_eq_true, Bool.true_and]

/-! Behaviour of the composite steps on failure paths. -/

theorem mkdir_frame (env : Env) (s : St) {q : Path}
    (hq : isUnder temporaryPath q = false) :
    lookupFS (mkdir env s).1.fs q = lookupFS s.fs q := by
  have hne : temporaryPath ≠ q := by
    intro h
    rw [← h, isUnder_refl] at hq
    exact Bool.true_eq_false.mp hq
  unfold mkdir
  cases ht : (lookupFS s.fs temporaryPath).isSome with
  | true =>
    rw [if_pos rfl]
    cases h0 : shutilRmtree env temporaryPath s with
    | mk sa ea =>
      have hfr : lookupFS sa.fs q = lookupFS s.fs q := by
        have h1 := shutilRmtree_frame env temporaryPath s hq
        rw [h0] at h1
        exact h1
      cases ea with
      | none =>
        simp only [andThen]
        rw [mkdirSingle_frame _ _ _ hne, hfr]
      | some e =>
        simp only [andThen]
        exact hfr
  | false =>
    rw [if_neg Bool.false_ne_true]
    simp only [andThen]
    rw [mkdirSingle_frame _ _ _ hne]

theorem download_firmware_fail (env : Env) (s : St)
    (hfail : statusOk env.fwStatus = false ∨ env.fwContentType ≠ "application/zip") :
    (download_firmware env s).1.fs = s.fs ∧
    ((download_firmware env s).2).isSome = true := by
  unfold download_firmware
  by_cases hs : statusOk env.fwStatus = false
  · rw [hs, if_pos rfl]
    exact ⟨rfl, rfl⟩
  · have hs' : statusOk env.fwStatus = true := by
      cases h : statusOk env.fwStatus
      · exact absurd h hs
      · rfl
    have hct : env.fwContentType ≠ "application/zip" := by
      rcases hfail with h | h
      · exact absurd h hs
      · exact h
    rw [hs', if_neg Bool.true_eq_false.mp]
    rw [if_pos hct]
    exact ⟨rfl, rfl⟩

theorem finallyBlock_frame (env : Env) (s : St) {q : Path}
    (hq1 : isUnder temporaryPath q = false)
    (h1 : isUnder ["tmp", "kvm_system"] q = false)
    (h2 : isUnder ["tmp", "server"] q = false)
    (h3 : isUnder ["etc", "init.d", "S02udisk"] q = false)
    (h4 : isUnder ["etc", "init.d", "S30wifi"] q = false)
    (h5 : isUnder kvmStreamPath q = false) :
    lookupFS (finallyBlock env s).1.fs q = lookupFS s.fs q := by
  unfold finallyBlock
  cases ht : (lookupFS s.fs temporaryPath).isSome with
  | true =>
    rw [if_pos rfl]
    cases h0 : shutilRmtree env temporaryPath s with
    | mk sa ea =>
      have hfr : lookupFS sa.fs q = lookupFS s.fs q := by
        have hx := shutilRmtree_frame env temporaryPath s hq1
        rw [h0] at hx
        exact hx
      cases ea with
      | some e => exact hfr
      | none =>
        show lookupFS (cleanup_files env
          { sa with trace := sa.trace ++ [Event.killallNanoKVM] }).fs q = _
        rw [cleanup_files_frame _ _ _ h1 h2 h3 h4 h5]
        exact hfr
  | false =>
    rw [if_neg Bool.false_ne_true]
    show lookupFS (cleanup_files env
      { s with trace := s.trace ++ [Event.killallNanoKVM] }).fs q = _
    rw [cleanup_files_frame _ _ _ h1 h2 h3 h4 h5]

theorem postBody_fs (env : Env) (s : St) :
    (postBody env s).fs = (updateBody env s).1.fs := by
  unfold postBody
  cases h : updateBody env s with
  | mk s1 e1 => cases e1 <;> rfl

theorem updatePipeline_fetchfail (env : Env) (s : St)
    (hfail : statusOk env.fwStatus = false ∨ env.fwContentType ≠ "application/zip") :
    ((updatePipeline env s).2).isSome = true ∧
    (∀ q, isUnder temporaryPath q = false →
      lookupFS (updatePipeline env s).1.fs q = lookupFS s.fs q) := by
  unfold updatePipeline
  cases hstop : service_control env "stop" s with
  | mk s1 e1 =>
    have hs1 : s1.fs = s.fs := by
      have hx := service_control_fs env "stop" s
      rw [hstop] at hx
      exact hx
    cases e1 with
    | some e =>
      simp only [andThen]
      exact ⟨rfl, fun q _ => by rw [hs1]⟩
    | none =>
      simp only [andThen]
      cases hmk : mkdir env s1 with
      | mk s2 e2 =>
        have hfr2 : ∀ q, isUnder temporaryPath q = false →
            lookupFS s2.fs q = lookupFS s.fs q := by
          intro q hq
          have hx := mkdir_frame env s1 hq
          rw [hmk] at hx
          rw [hx, hs1]
        cases e2 with
        | some e =>
          simp only [andThen]
          exact ⟨rfl, hfr2⟩
        | none =>
          simp only [andThen]
          obtain ⟨hdf_fs, hdf_err⟩ := download_firmware_fail env s2 hfail
          cases hdf : download_firmware env s2 with
          | mk s3 e3 =>
            rw [hdf] at hdf_fs hdf_err
            cases e3 with
            | none => exact absurd hdf_err (by simp)
            | some e =>
              simp only [andThen]
              exact ⟨rfl, fun q hq => by
                show lookupFS s3.fs q = _
                rw [hdf_fs]
                exact hfr2 q hq⟩

theorem setup_directories_frame (env : Env) (s : St) (q : Path)
    (h1 : isUnder q kvmDirPath = false) (h2 : isUnder q etcKvmPath = false) :
    lookupFS (setup_directories env s).fs q = lookupFS s.fs q := by
  unfold setup_directories
  rw [safe_mkdir_frame _ _ _ h2, safe_mkdir_frame _ _ _ h1]

theorem safe_remove_removed (env : Env) (p : Path) (s : St)
    (hf : p ∉ env.failRemove) {q : Path} (hq : isUnder p q = true) :
    lookupFS (safe_remove env p s).fs q = none := by
  unfold safe_remove
  rw [if_neg hf]
  show lookupFS (removeTree p s.fs) q = none
  rw [lookupFS_removeTree, if_pos hq]

theorem cleanup_files_ks (env : Env) (s : St) (hf : kvmStreamPath ∉ env.failRemove)
    {q : Path} (hq : isUnder kvmStreamPath q = true) :
    lookupFS (cleanup_files env s).fs q = none := by
  rw [cleanup_files_eq]
  exact safe_remove_removed env kvmStreamPath _ hf hq

theorem extractMember_tmpdir (env : Env) (m : ZipEntry) (s : St) {d : Nat}
    (h : lookupFS s.fs temporaryPath = some (.dir d)) :
    lookupFS (extractMember env temporaryPath m s).1.fs temporaryPath = some (.dir d) := by
  unfold extractMember
  cases h0 : makedirsE env s.fs [] (extractTarget temporaryPath m).dropLast with
  | mk fs1 e1 =>
    have h1 : lookupFS fs1 temporaryPath = some (.dir d) := by
      have hx := makedirsE_preserve env (extractTarget temporaryPath m).dropLast s.fs [] h
      rw [h0] at hx
      exact hx
    cases e1 with
    | some e => exact h1
    | none =>
      cases hd : m.isDirEntry with
      | true =>
        dsimp only
        rw [if_pos rfl]
        cases ht : lookupFS fs1 (extractTarget temporaryPath m) with
        | some n =>
          cases n with
          | dir dp => exact h1
          | file c p => exact h1
        | none =>
          cases hp : lookupFS fs1 (extractTarget temporaryPath m).dropLast with
          | some n =>
            cases n with
            | dir dp =>
              have hne : extractTarget temporaryPath m ≠ temporaryPath := by
                intro hx
                rw [hx, h1] at ht
                exact Option.noConfusion ht
              show lookupFS (insertNode (extractTarget temporaryPath m)
                (.dir (freshDirMode env)) fs1) temporaryPath = _
              rw [lookupFS_insert, if_neg hne]
              exact h1
            | file c p => exact h1
          | none => exact h1
      | false =>
        dsimp only
        rw [if_neg Bool.false_ne_true]
        by_cases htgt : extractTarget temporaryPath m = temporaryPath
        · rw [htgt]
          unfold writeFileFS
          dsimp only
          rw [h1]
          exact h1
        · rw [writeFileFS_frame env _ _ _ htgt]
          exact h1

theorem extractAll_tmpdir (env : Env) (ms : List ZipEntry) (s : St) {d : Nat}
    (h : lookupFS s.fs temporaryPath = some (.dir d)) :
    lookupFS (extractAll env temporaryPath ms s).1.fs temporaryPath = some (.dir d) := by
  induction ms generalizing s with
  | nil => exact h
  | cons m rest ih =>
    show lookupFS (andThen (extractMember env temporaryPath m s)
      (extractAll env temporaryPath rest)).1.fs temporaryPath = _
    cases h0 : extractMember env temporaryPath m s with
    | mk sa ea =>
      have ha : lookupFS sa.fs temporaryPath = some (.dir d) := by
        have hx := extractMember_tmpdir env m s h
        rw [h0] at hx
        exact hx
      cases ea with
      | some e => exact ha
      | none =>
        simp only [andThen]
        exact ih sa ha

theorem download_firmware_tmpdir (env : Env) (s : St) {d : Nat}
    (h : lookupFS s.fs temporaryPath = some (.dir d)) :
    lookupFS (download_firmware env s).1.fs temporaryPath = some (.dir d) := by
  unfold download_firmware
  by_cases hs : statusOk env.fwStatus = false
  · rw [hs, if_pos rfl]
    exact h
  · have hs' : statusOk env.fwStatus = true := by
      cases hb : statusOk env.fwStatus
      · exact absurd hb hs
      · rfl
    rw [hs', if_neg Bool.true_eq_false.mp]
    by_cases hct : env.fwContentType ≠ "application/zip"
    · rw [if_pos hct]
      exact h
    · rw [if_neg hct]
      cases h0 : writeFileFS env zipFilePath env.fwBody
          { s with trace := s.trace ++ [Event.httpGet (firmwareURL env)] } with
      | mk sw ew =>
        have hw : lookupFS sw.fs temporaryPath = some (.dir d) := by
          have hx := writeFileFS_frame env zipFilePath env.fwBody
            { s with trace := s.trace ++ [Event.httpGet (firmwareURL env)] }
            (show zipFilePath ≠ temporaryPath by decide)
          rw [h0] at hx
          rw [hx]
          exact h
        cases ew with
        | some e =>
          simp only [andThen]
          exact hw
        | none =>
          simp only [andThen]
          by_cases hwf : env.fwArchive.wellFormed = false
          · rw [hwf, if_pos rfl]
            exact hw
          · have hwf' : env.fwArchive.wellFormed = true := by
              cases hb : env.fwArchive.wellFormed
              · exact absurd hb hwf
              · rfl
            rw [hwf', if_neg Bool.true_eq_false.mp]
            exact extractAll_tmpdir env _ _ hw

theorem download_lib_tmpdir (env : Env) (s : St) {d : Nat}
    (h : lookupFS s.fs temporaryPath = some (.dir d)) :
    lookupFS (download_lib env s).1.fs temporaryPath = some (.dir d) := by
  unfold download_lib
  cases h0 : read_file deviceKeyPath s with
  | mk s1 r =>
    have h1 : lookupFS s1.fs temporaryPath = some (.dir d) := by
      have hx := read_file_fs deviceKeyPath s
      rw [h0] at hx
      rw [hx]
      exact h
    cases r with
    | error e => exact h1
    | ok key =>
      dsimp only
      by_cases hs : statusOk env.libStatus = false
      · rw [hs, if_pos rfl]
        exact h1
      · have hs' : statusOk env.libStatus = true := by
          cases hb : statusOk env.libStatus
          · exact absurd hb hs
          · rfl
        rw [hs', if_neg Bool.true_eq_false.mp]
        by_cases hct : env.libContentType ≠ "application/octet-stream"
        · rw [if_pos hct]
          exact h1
        · rw [if_neg hct]
          cases h2 : writeFileFS env libFilePath env.libBytes
              { s1 with trace := s1.trace ++ [Event.httpGet (libURL key)] } with
          | mk sw ew =>
            have hw : lookupFS sw.fs temporaryPath = some (.dir d) := by
              have hx := writeFileFS_frame env libFilePath env.libBytes
                { s1 with trace := s1.trace ++ [Event.httpGet (libURL key)] }
                (show libFilePath ≠ temporaryPath by decide)
              rw [h2] at hx
              rw [hx]
              exact h1
            cases ew with
            | some e =>
              simp only [andThen]
              exact hw
            | none =>
              simp only [andThen]
              rw [shutilCopy_frame libFilePath dlLibPath sw
                (show isUnder dlLibPath temporaryPath = false from rfl)]
              exact hw

theorem update_firmware_frame (env : Env) (s : St) (q : Path)
    (h1 : isUnder backupPath q = false) (h2 : isUnder firmwarePath q = false)
    (h3 : isUnder stagedPath q = false) :
    lookupFS (update_firmware env s).1.fs q = lookupFS s.fs q := by
  unfold update_firmware
  cases hr1 : (if (lookupFS s.fs backupPath).isSome = true then shutilRmtree env backupPath s
      else (s, none)) with
  | mk s1 e1 =>
    have hf1 : lookupFS s1.fs q = lookupFS s.fs q := by
      by_cases hb : (lookupFS s.fs backupPath).isSome = true
      · rw [if_pos hb] at hr1
        have hx := shutilRmtree_frame env backupPath s h1
        rw [hr1] at hx
        exact hx
      · rw [if_neg hb] at hr1
        cases hr1
        rfl
    cases e1 with
    | some e =>
      simp only [andThen]
      exact hf1
    | none =>
      simp only [andThen]
      cases hr2 : (if (lookupFS s1.fs firmwarePath).isSome = true then
          shutilMove env firmwarePath backupPath s1 else (s1, none)) with
      | mk s2 e2 =>
        have hf2 : lookupFS s2.fs q = lookupFS s1.fs q := by
          by_cases hb : (lookupFS s1.fs firmwarePath).isSome = true
          · rw [if_pos hb] at hr2
            have hx := shutilMove_frame env firmwarePath backupPath s1 h2 h1
            rw [hr2] at hx
            exact hx
          · rw [if_neg hb] at hr2
            cases hr2
            rfl
        cases e2 with
        | some e =>
          simp only [andThen]
          exact hf2.trans hf1
        | none =>
          simp only [andThen]
          rw [shutilMove_frame env stagedPath firmwarePath s2 h3 h2]
          exact hf2.trans hf1

theorem mkdir_cases (env : Env) (s : St) :
    ((mkdir env s).2 = none → TmpDir (mkdir env s).1.fs) ∧
    (TmpOK s.fs → TmpOK (mkdir env s).1.fs) := by
  unfold mkdir
  cases hl : lookupFS s.fs temporaryPath with
  | none =>
    rw [Option.isSome_none, if_neg Bool.false_ne_true]
    simp only [andThen]
    unfold mkdirSingle
    rw [hl]
    cases hp : lookupFS s.fs temporaryPath.dropLast with
    | none =>
      exact ⟨fun h => Option.noConfusion h, fun _ => Or.inl hl⟩
    | some n =>
      cases n with
      | dir dp =>
        refine ⟨fun _ => ⟨freshDirMode env, ?_⟩, fun _ => Or.inr ⟨freshDirMode env, ?_⟩⟩ <;>
          · show lookupFS (insertNode temporaryPath (.dir (freshDirMode env)) s.fs)
              temporaryPath = _
            rw [lookupFS_insert, if_pos rfl]
      | file c p =>
        exact ⟨fun h => Option.noConfusion h, fun _ => Or.inl hl⟩
  | some n =>
    rw [Option.isSome_some, if_pos rfl]
    cases n with
    | file c p =>
      have hrm : shutilRmtree env temporaryPath s = (s, some (.notADirectoryError temporaryPath)) := by
        unfold shutilRmtree
        rw [hl]
      rw [hrm]
      simp only [andThen]
      refine ⟨fun h => Option.noConfusion h, fun hok => ?_⟩
      rcases hok with h | ⟨dx, h⟩
      · rw [h] at hl
        exact Option.noConfusion hl
      · rw [h] at hl
        exact absurd (Option.some.inj hl) (fun hx => Node.noConfusion hx)
    | dir dp =>
      by_cases hf : temporaryPath ∈ env.failRemove
      · have hrm : shutilRmtree env temporaryPath s = (s, some (.osError temporaryPath)) := by
          unfold shutilRmtree
          rw [hl]
          exact if_pos hf
        rw [hrm]
        simp only [andThen]
        exact ⟨fun h => Option.noConfusion h, fun _ => Or.inr ⟨dp, hl⟩⟩
      · have hrm : shutilRmtree env temporaryPath s =
            ({ s with fs := removeTree temporaryPath s.fs }, none) := by
          unfold shutilRmtree
          rw [hl]
          exact if_neg hf
        rw [hrm]
        simp only [andThen]
        have hnone : lookupFS (removeTree temporaryPath s.fs) temporaryPath = none := by
          rw [lookupFS_removeTree, if_pos (isUnder_refl temporaryPath)]
        unfold mkdirSingle
        dsimp only
        rw [hnone]
        cases hp : lookupFS (removeTree temporaryPath s.fs) temporaryPath.dropLast with
        | none =>
          exact ⟨fun h => Option.noConfusion h, fun _ => Or.inl hnone⟩
        | some n2 =>
          cases n2 with
          | dir dp2 =>
            refine ⟨fun _ => ⟨freshDirMode env, ?_⟩,
              fun _ => Or.inr ⟨freshDirMode env, ?_⟩⟩ <;>
              · show lookupFS (insertNode temporaryPath (.dir (freshDirMode env)) _)
                  temporaryPath = _
                rw [lookupFS_insert, if_pos rfl]
          | file c2 p2 =>
            exact ⟨fun h => Option.noConfusion h, fun _ => Or.inl hnone⟩

theorem pipelineTail_tmpdir (env : Env) (s6 : St) (h : TmpDir s6.fs) :
    TmpDir (handle_kernel_modules (cleanup_files env (setup_directories env s6))).fs := by
  obtain ⟨d, h⟩ := h
  refine ⟨d, ?_⟩
  rw [handle_kernel_modules_fs, cleanup_files_frame _ _ temporaryPath rfl rfl rfl rfl rfl,
    setup_directories_frame _ _ temporaryPath rfl rfl]
  exact h

theorem updatePipeline_tmpok (env : Env) (s : St) (h : TmpOK s.fs) :
    TmpOK (updatePipeline env s).1.fs := by
  unfold updatePipeline
  cases hstop : service_control env "stop" s with
  | mk s1 e1 =>
    have hs1 : s1.fs = s.fs := by
      have hx := service_control_fs env "stop" s
      rw [hstop] at hx
      exact hx
    have h1 : TmpOK s1.fs := by rw [hs1]; exact h
    cases e1 with
    | some e =>
      simp only [andThen]
      exact h1
    | none =>
      simp only [andThen]
      cases hmk : mkdir env s1 with
      | mk s2 e2 =>
        have h2ok : TmpOK s2.fs := by
          have hx := (mkdir_cases env s1).2 h1
          rw [hmk] at hx
          exact hx
        cases e2 with
        | some e =>
          simp only [andThen]
          exact h2ok
        | none =>
          have h2dir : TmpDir s2.fs := by
            have hx := (mkdir_cases env s1).1 (by rw [hmk])
            rw [hmk] at hx
            exact hx
          simp only [andThen]
          refine Or.inr ?_
          refine andThen_pres (fun st => TmpDir st.fs) _ _ ?_ ?_
          · obtain ⟨d, hd⟩ := h2dir
            exact ⟨d, download_firmware_tmpdir env s2 hd⟩
          intro s3 h3
          refine andThen_pres (fun st => TmpDir st.fs) _ _ ?_ ?_
          · obtain ⟨d, hd⟩ := h3
            exact ⟨d, download_lib_tmpdir env s3 hd⟩
          intro s4 h4
          refine andThen_pres (fun st => TmpDir st.fs) _ _ ?_ ?_
          · obtain ⟨d, hd⟩ := h4
            refine ⟨d, ?_⟩
            rw [update_firmware_frame env s4 temporaryPath rfl rfl rfl]
            exact hd
          intro s5 h5
          have h6 : TmpDir (set_permissions s5).1.fs := by
            obtain ⟨d, hd⟩ := h5
            refine ⟨d, ?_⟩
            rw [set_permissions_frame s5 temporaryPath rfl]
            exact hd
          exact pipelineTail_tmpdir env (set_permissions s5).1 h6

theorem updateBody_tmpok (env : Env) (s : St) (h : TmpOK s.fs) :
    TmpOK (updateBody env s).1.fs := by
  unfold updateBody
  refine andThen_pres (fun st => TmpOK st.fs) _ _ (updatePipeline_tmpok env s h) ?_
  intro s9 h9
  refine andThen_pres (fun st => TmpOK st.fs) _ _ ?_ ?_
  · show TmpOK (readVersionStep s9).1.fs
    unfold TmpOK TmpDir
    rw [readVersionStep_fs]
    exact h9
  intro s10 h10
  show TmpOK (service_control env "restart" s10).1.fs
  unfold TmpOK TmpDir
  rw [service_control_fs]
  exact h10

theorem finallyBlock_ok (env : Env) (s : St)
    (hfault : temporaryPath ∉ env.failRemove) (h : TmpOK s.fs) :
    (finallyBlock env s).2 = none ∧
    lookupFS (finallyBlock env s).1.fs temporaryPath = none ∧
    (finallyBlock env s).1.trace = s.trace ++ [Event.killallNanoKVM] := by
  unfold finallyBlock
  rcases h with h | ⟨d, h⟩
  · rw [show (lookupFS s.fs temporaryPath).isSome = false by rw [h]; rfl,
      if_neg Bool.false_ne_true]
    refine ⟨rfl, ?_, ?_⟩
    · show lookupFS (cleanup_files env
        { s with trace := s.trace ++ [Event.killallNanoKVM] }).fs temporaryPath = none
      rw [cleanup_files_frame _ _ temporaryPath rfl rfl rfl rfl rfl]
      exact h
    · show (cleanup_files env { s with trace := s.trace ++ [Event.killallNanoKVM] }).trace = _
      rw [cleanup_files_trace]
  · rw [show (lookupFS s.fs temporaryPath).isSome = true by rw [h]; rfl, if_pos rfl]
    have hrm : shutilRmtree env temporaryPath s =
        ({ s with fs := removeTree temporaryPath s.fs }, none) := by
      unfold shutilRmtree
      rw [h]
      exact if_neg hfault
    rw [hrm]
    refine ⟨rfl, ?_, ?_⟩
    · show lookupFS (cleanup_files env _).fs temporaryPath = none
      rw [cleanup_files_frame _ _ temporaryPath rfl rfl rfl rfl rfl]
      show lookupFS (removeTree temporaryPath s.fs) temporaryPath = none
      rw [lookupFS_removeTree, if_pos (isUnder_refl temporaryPath)]
    · show (cleanup_files env _).trace = _
      rw [cleanup_files_trace]

theorem read_file_trace (p : Path) (s : St) :
    (read_file p s).1.trace = s.trace ∨
    (read_file p s).1.trace = s.trace ++ [Event.logError "Failed to read file"] := by
  unfold read_file
  split
  · exact Or.inl rfl
  · exact Or.inr rfl
  · exact Or.inr rfl

theorem service_control_stop_norestart (env : Env) (s : St)
    (h : Event.serviceRestart ∉ s.trace) :
    Event.serviceRestart ∉ (service_control env "stop" s).1.trace := by
  unfold service_control
  rw [if_pos rfl]
  dsimp only
  by_cases he : env.stopExitCode ≠ 0
  · rw [if_pos he]
    simp [h]
  · rw [if_neg he]
    simp [h]

theorem download_firmware_trace (env : Env) (s : St) :
    (download_firmware env s).1.trace = s.trace ++ [Event.httpGet (firmwareURL env)] := by
  unfold download_firmware
  by_cases hs : statusOk env.fwStatus = false
  · rw [hs, if_pos rfl]
  · have hs' : statusOk env.fwStatus = true := by
      cases hb : statusOk env.fwStatus
      · exact absurd hb hs
      · rfl
    rw [hs', if_neg Bool.true_eq_false.mp]
    by_cases hct : env.fwContentType ≠ "application/zip"
    · rw [if_pos hct]
    · rw [if_neg hct]
      cases h0 : writeFileFS env zipFilePath env.fwBody
          { s with trace := s.trace ++ [Event.httpGet (firmwareURL env)] } with
      | mk sw ew =>
        have htw : sw.trace = s.trace ++ [Event.httpGet (firmwareURL env)] := by
          have hx := writeFileFS_trace env zipFilePath env.fwBody
            { s with trace := s.trace ++ [Event.httpGet (firmwareURL env)] }
          rw [h0] at hx
          exact hx
        cases ew with
        | some e =>
          simp only [andThen]
          exact htw
        | none =>
          simp only [andThen]
          by_cases hwf : env.fwArchive.wellFormed = false
          · rw [hwf, if_pos rfl]
            exact htw
          · have hwf' : env.fwArchive.wellFormed = true := by
              cases hb : env.fwArchive.wellFormed
              · exact absurd hb hwf
              · rfl
            rw [hwf', if_neg Bool.true_eq_false.mp, extractAll_trace]
            exact htw

theorem download_lib_norestart (env : Env) (s : St)
    (h : Event.serviceRestart ∉ s.trace) :
    Event.serviceRestart ∉ (download_lib env s).1.trace := by
  unfold download_lib
  cases h0 : read_file deviceKeyPath s with
  | mk s1 r =>
    have hd := read_file_trace deviceKeyPath s
    rw [h0] at hd
    have hn1 : Event.serviceRestart ∉ s1.trace := by
      rcases hd with ht | ht <;> rw [ht] <;> simp [h]
    cases r with
    | error e => exact hn1
    | ok key =>
      dsimp only
      by_cases hs : statusOk env.libStatus = false
      · rw [hs, if_pos rfl]
        simp [hn1]
      · have hs' : statusOk env.libStatus = true := by
          cases hb : statusOk env.libStatus
          · exact absurd hb hs
          · rfl
        rw [hs', if_neg Bool.true_eq_false.mp]
        by_cases hct : env.libContentType ≠ "application/octet-stream"
        · rw [if_pos hct]
          simp [hn1]
        · rw [if_neg hct]
          cases h2 : writeFileFS env libFilePath env.libBytes
              { s1 with trace := s1.trace ++ [Event.httpGet (libURL key)] } with
          | mk sw ew =>
            have htw : sw.trace = s1.trace ++ [Event.httpGet (libURL key)] := by
              have hx := writeFileFS_trace env libFilePath env.libBytes
                { s1 with trace := s1.trace ++ [Event.httpGet (libURL key)] }
              rw [h2] at hx
              exact hx
            have hnw : Event.serviceRestart ∉ sw.trace := by
              rw [htw]
              simp [hn1]
            cases ew with
            | some e =>
              simp only [andThen]
              exact hnw
            | none =>
              simp only [andThen]
              rw [shutilCopy_trace]
              exact hnw

theorem update_firmware_trace (env : Env) (s : St) :
    (update_firmware env s).1.trace = s.trace := by
  unfold update_firmware
  cases hr1 : (if (lookupFS s.fs backupPath).isSome = true then shutilRmtree env backupPath s
      else (s, none)) with
  | mk s1 e1 =>
    have ht1 : s1.trace = s.trace := by
      by_cases hb : (lookupFS s.fs backupPath).isSome = true
      · rw [if_pos hb] at hr1
        have hx := shutilRmtree_trace env backupPath s
        rw [hr1] at hx
        exact hx
      · rw [if_neg hb] at hr1
        cases hr1
        rfl
    cases e1 with
    | some e =>
      simp only [andThen]
      exact ht1
    | none =>
      simp only [andThen]
      cases hr2 : (if (lookupFS s1.fs firmwarePath).isSome = true then
          shutilMove env firmwarePath backupPath s1 else (s1, none)) with
      | mk s2 e2 =>
        have ht2 : s2.trace = s1.trace := by
          by_cases hb : (lookupFS s1.fs firmwarePath).isSome = true
          · rw [if_pos hb] at hr2
            have hx := shutilMove_trace env firmwarePath backupPath s1
            rw [hr2] at hx
            exact hx
          · rw [if_neg hb] at hr2
            cases hr2
            rfl
        cases e2 with
        | some e =>
          simp only [andThen]
          exact ht2.trans ht1
        | none =>
          simp only [andThen]
          rw [shutilMove_trace]
          exact ht2.trans ht1

theorem handle_kernel_modules_norestart (s : St)
    (h : Event.serviceRestart ∉ s.trace) :
    Event.serviceRestart ∉ (handle_kernel_modules s).trace := by
  unfold handle_kernel_modules safe_execute
  simp [h]

theorem readVersionStep_norestart (s : St) (h : Event.serviceRestart ∉ s.trace) :
    Event.serviceRestart ∉ (readVersionStep s).1.trace := by
  unfold readVersionStep
  cases h0 : read_file versionPath s with
  | mk s1 r =>
    have hd := read_file_trace versionPath s
    rw [h0] at hd
    have hn1 : Event.serviceRestart ∉ s1.trace := by
      rcases hd with ht | ht <;> rw [ht] <;> simp [h]
    cases r with
    | ok v => exact hn1
    | error e => exact hn1

theorem updatePipeline_norestart (env : Env) (s : St)
    (h : Event.serviceRestart ∉ s.trace) :
    Event.serviceRestart ∉ (updatePipeline env s).1.trace := by
  unfold updatePipeline
  cases h1 : service_control env "stop" s with
  | mk s1 e1 =>
    have hn1 : Event.serviceRestart ∉ s1.trace := by
      have hx := service_control_stop_norestart env s h
      rw [h1] at hx
      exact hx
    cases e1 with
    | some e =>
      simp only [andThen]
      exact hn1
    | none =>
      simp only [andThen]
      cases h2 : mkdir env s1 with
      | mk s2 e2 =>
        have hn2 : Event.serviceRestart ∉ s2.trace := by
          have hx := mkdir_trace env s1
          rw [h2] at hx
          rw [hx]
          exact hn1
        cases e2 with
        | some e =>
          simp only [andThen]
          exact hn2
        | none =>
          simp only [andThen]
          cases h3 : download_firmware env s2 with
          | mk s3 e3 =>
            have hn3 : Event.serviceRestart ∉ s3.trace := by
              have hx := download_firmware_trace env s2
              rw [h3] at hx
              rw [hx]
              simp [hn2]
            cases e3 with
            | some e =>
              simp only [andThen]
              exact hn3
            | none =>
              simp only [andThen]
              cases h4 : download_lib env s3 with
              | mk s4 e4 =>
                have hn4 : Event.serviceRestart ∉ s4.trace := by
                  have hx := download_lib_norestart env s3 hn3
                  rw [h4] at hx
                  exact hx
                cases e4 with
                | some e =>
                  simp only [andThen]
                  exact hn4
                | none =>
                  simp only [andThen]
                  cases h5 : update_firmware env s4 with
                  | mk s5 e5 =>
                    have hn5 : Event.serviceRestart ∉ s5.trace := by
                      have hx := update_firmware_trace env s4
                      rw [h5] at hx
                      rw [hx]
                      exact hn4
                    cases e5 with
                    | some e =>
                      simp only [andThen]
                      exact hn5
                    | none =>
                      simp only [andThen]
                      refine handle_kernel_modules_norestart _ ?_
                      rw [cleanup_files_trace]
                      exact hn5

theorem updateBody_success_restart (env : Env) (s : St)
    (h : (updateBody env s).2 = none) :
    Event.serviceRestart ∈ (updateBody env s).1.trace := by
  unfold updateBody at h ⊢
  obtain ⟨h1, h2, h3⟩ := andThen_none h
  rw [h3]
  obtain ⟨h4, h5, h6⟩ := andThen_none h2
  rw [h6]
  unfold service_control
  rw [if_neg (by decide : ¬ ("restart" : String) = "stop")]
  simp

theorem updateBody_fail_norestart (env : Env) (s : St)
    (h0 : Event.serviceRestart ∉ s.trace)
    (hb : ((updateBody env s).2).isSome = true) :
    Event.serviceRestart ∉ (updateBody env s).1.trace := by
  unfold updateBody at hb ⊢
  cases hp : updatePipeline env s with
  | mk sp ep =>
    have hnp : Event.serviceRestart ∉ sp.trace := by
      have hx := updatePipeline_norestart env s h0
      rw [hp] at hx
      exact hx
    rw [hp] at hb
    cases ep with
    | some e =>
      simp only [andThen]
      exact hnp
    | none =>
      simp only [andThen] at hb ⊢
      cases hv : readVersionStep sp with
      | mk s10 e10 =>
        have hn10 : Event.serviceRestart ∉ s10.trace := by
          have hx := readVersionStep_norestart sp hnp
          rw [hv] at hx
          exact hx
        rw [hv] at hb
        cases e10 with
        | some e =>
          simp only [andThen]
          exact hn10
        | none =>
          simp only [andThen] at hb
          unfold service_control at hb
          rw [if_neg (by decide : ¬ ("restart" : String) = "stop")] at hb
          simp at hb

theorem finallyBlock_mem (env : Env) (s : St) {ev : Event} (h : ev ∈ s.trace) :
    ev ∈ (finallyBlock env s).1.trace := by
  unfold finallyBlock
  cases ht : (lookupFS s.fs temporaryPath).isSome with
  | true =>
    rw [if_pos rfl]
    cases h0 : shutilRmtree env temporaryPath s with
    | mk sa ea =>
      have hta : sa.trace = s.trace := by
        have hx := shutilRmtree_trace env temporaryPath s
        rw [h0] at hx
        exact hx
      cases ea with
      | some e =>
        show ev ∈ sa.trace
        rw [hta]
        exact h
      | none =>
        show ev ∈ (cleanup_files env
          { sa with trace := sa.trace ++ [Event.killallNanoKVM] }).trace
        rw [cleanup_files_trace]
        dsimp only
        rw [hta]
        simp [h]
  | false =>
    rw [if_neg Bool.false_ne_true]
    show ev ∈ (cleanup_files env
      { s with trace := s.trace ++ [Event.killallNanoKVM] }).trace
    rw [cleanup_files_trace]
    simp [h]

theorem pipelineTail_ks (env : Env) (s5 : St) (hrm : kvmStreamPath ∉ env.failRemove)
    {x : Path} (hx : isUnder kvmStreamPath x = true) :
    lookupFS (andThen (set_permissions s5) (fun s6 =>
      let s7 := setup_directories env s6
      let s8 := cleanup_files env s7
      ((handle_kernel_modules s8), none))).1.fs x = none := by
  show lookupFS (handle_kernel_modules (cleanup_files env
    (setup_directories env (set_permissions s5).1))).fs x = none
  rw [handle_kernel_modules_fs]
  exact cleanup_files_ks env _ hrm hx

theorem updatePipeline_success_ks (env : Env) (s : St)
    (hrm : kvmStreamPath ∉ env.failRemove)
    (hp : (updatePipeline env s).2 = none) :
    ∀ x, isUnder kvmStreamPath x = true →
      lookupFS (updatePipeline env s).1.fs x = none := by
  intro x hx
  unfold updatePipeline at hp ⊢
  obtain ⟨ha1, ha2, ha3⟩ := andThen_none hp
  rw [ha3]
  try dsimp only at ha2 ⊢
  obtain ⟨hb1, hb2, hb3⟩ := andThen_none ha2
  rw [hb3]
  try dsimp only at hb2 ⊢
  obtain ⟨hc1, hc2, hc3⟩ := andThen_none hb2
  rw [hc3]
  try dsimp only at hc2 ⊢
  obtain ⟨hd1, hd2, hd3⟩ := andThen_none hc2
  rw [hd3]
  try dsimp only at hd2 ⊢
  obtain ⟨he1, he2, he3⟩ := andThen_none hd2
  rw [he3]
  exact pipelineTail_ks env _ hrm hx

theorem finallyBlock_ks (env : Env) (s : St)
    (hfault : temporaryPath ∉ env.failRemove) (hks : kvmStreamPath ∉ env.failRemove)
    (h : TmpOK s.fs) {x : Path} (hx : isUnder kvmStreamPath x = true) :
    lookupFS (finallyBlock env s).1.fs x = none := by
  unfold finallyBlock
  rcases h with h | ⟨d, h⟩
  · rw [show (lookupFS s.fs temporaryPath).isSome = false by rw [h]; rfl,
      if_neg Bool.false_ne_true]
    show lookupFS (cleanup_files env
      { s with trace := s.trace ++ [Event.killallNanoKVM] }).fs x = none
    exact cleanup_files_ks env _ hks hx
  · rw [show (lookupFS s.fs temporaryPath).isSome = true by rw [h]; rfl, if_pos rfl]
    have hrm : shutilRmtree env temporaryPath s =
        ({ s with fs := removeTree temporaryPath s.fs }, none) := by
      unfold shutilRmtree
      rw [h]
      exact if_neg hfault
    rw [hrm]
    show lookupFS (cleanup_files env _).fs x = none
    exact cleanup_files_ks env _ hks hx

theorem isUnder_nil_right {q : Path} (h : isUnder q [] = true) : q = [] := by
  cases q with
  | nil => rfl
  | cons a as => simp [isUnder] at h

theorem makedirsE_root_only (env : Env) (fs : FS) {rp : Nat}
    (hroot : lookupFS fs ["root"] = some (.dir rp)) :
    makedirsE env fs [] ["root"] = (fs, none) := by
  have hroot' : lookupFS fs ([] ++ ["root"]) = some (.dir rp) := hroot
  simp only [makedirsE, hroot']

theorem makedirsE_tmp_chain (env : Env) (fs : FS) {rp tp : Nat}
    (hroot : lookupFS fs ["root"] = some (.dir rp))
    (htmp : lookupFS fs temporaryPath = some (.dir tp)) (rest : List String) :
    makedirsE env fs [] ("root" :: "nanokvm-cache" :: rest) =
      makedirsE env fs temporaryPath rest := by
  have hroot' : lookupFS fs ([] ++ ["root"]) = some (.dir rp) := hroot
  have htmp' : lookupFS fs (([] ++ ["root"]) ++ ["nanokvm-cache"]) = some (.dir tp) := htmp
  simp only [makedirsE, hroot', htmp']
  rfl

theorem extractMember_contained (env : Env) (m : ZipEntry) (s : St) {rp tp : Nat}
    (hroot : lookupFS s.fs ["root"] = some (.dir rp))
    (htmp : lookupFS s.fs temporaryPath = some (.dir tp)) :
    ∀ q, isUnder temporaryPath q = false →
      lookupFS (extractMember env temporaryPath m s).1.fs q = lookupFS s.fs q := by
  intro q hq
  have hqx : ∀ sub : Path, temporaryPath ++ sub ≠ q := by
    intro sub hx
    rw [← hx, isUnder_append_self] at hq
    exact Bool.true_eq_false.mp hq
  unfold extractMember extractTarget
  cases hsan : sanitize m.nameParts with
  | nil =>
    rw [List.append_nil, show temporaryPath.dropLast = ["root"] from rfl,
      makedirsE_root_only env s.fs hroot]
    cases hd : m.isDirEntry with
    | true =>
      dsimp only
      rw [if_pos rfl, htmp]
    | false =>
      dsimp only
      rw [if_neg Bool.false_ne_true]
      unfold writeFileFS
      dsimp only
      rw [htmp]
  | cons c cs =>
    rw [show (temporaryPath ++ c :: cs).dropLast =
      "root" :: "nanokvm-cache" :: (c :: cs).dropLast from rfl,
      makedirsE_tmp_chain env s.fs hroot htmp]
    cases hmk : makedirsE env s.fs temporaryPath (c :: cs).dropLast with
    | mk fs1 e1 =>
      have hfr1 : lookupFS fs1 q = lookupFS s.fs q := by
        have hx := makedirsE_frame env ((c :: cs).dropLast) s.fs temporaryPath hq
        rw [hmk] at hx
        exact hx
      cases e1 with
      | some e => exact hfr1
      | none =>
        cases hd : m.isDirEntry with
        | true =>
          dsimp only
          rw [if_pos rfl]
          cases ht : lookupFS fs1 (temporaryPath ++ c :: cs) with
          | some n0 =>
            cases n0 with
            | dir dp => exact hfr1
            | file cc pp => exact hfr1
          | none =>
            cases hp : lookupFS fs1 ("root" :: "nanokvm-cache" :: (c :: cs).dropLast) with
            | some n0 =>
              cases n0 with
              | dir dp =>
                show lookupFS (insertNode (temporaryPath ++ c :: cs)
                  (.dir (freshDirMode env)) fs1) q = _
                rw [lookupFS_insert, if_neg (hqx (c :: cs))]
                exact hfr1
              | file cc pp => exact hfr1
            | none => exact hfr1
        | false =>
          dsimp only
          rw [if_neg Bool.false_ne_true]
          rw [writeFileFS_frame env _ _ _ (hqx (c :: cs))]
          exact hfr1

theorem extractAll_contained_aux (env : Env) (ms : List ZipEntry) (s : St) (rp tp : Nat)
    (hroot : lookupFS s.fs ["root"] = some (.dir rp))
    (htmp : lookupFS s.fs temporaryPath = some (.dir tp)) :
    ∀ q, isUnder temporaryPath q = false →
      lookupFS (extractAll env temporaryPath ms s).1.fs q = lookupFS s.fs q := by
  induction ms generalizing s with
  | nil => intro q hq; rfl
  | cons m rest ih =>
    intro q hq
    show lookupFS (andThen (extractMember env temporaryPath m s)
      (extractAll env temporaryPath rest)).1.fs q = _
    cases h0 : extractMember env temporaryPath m s with
    | mk sa ea =>
      have hfr : ∀ x, isUnder temporaryPath x = false →
          lookupFS sa.fs x = lookupFS s.fs x := by
        intro x hx
        have hy := extractMember_contained env m s hroot htmp x hx
        rw [h0] at hy
        exact hy
      have hroot2 : lookupFS sa.fs ["root"] = some (.dir rp) := by
        rw [hfr ["root"] rfl]
        exact hroot
      have htmp2 : lookupFS sa.fs temporaryPath = some (.dir tp) := by
        have hy := extractMember_tmpdir env m s htmp
        rw [h0] at hy
        exact hy
      cases ea with
      | some e => exact hfr q hq
      | none =>
        simp only [andThen]
        rw [ih sa hroot2 htmp2 q hq]
        exact hfr q hq

theorem updateBody_fetchfail (env : Env) (s : St)
    (hfail : statusOk env.fwStatus = false ∨ env.fwContentType ≠ "application/zip") :
    ((updateBody env s).2).isSome = true ∧
    (∀ q, isUnder temporaryPath q = false →
      lookupFS (updateBody env s).1.fs q = lookupFS s.fs q) := by
  obtain ⟨he, hfr⟩ := updatePipeline_fetchfail env s hfail
  unfold updateBody
  cases hp : updatePipeline env s with
  | mk sp ep =>
    rw [hp] at he hfr
    cases ep with
    | none => exact absurd he (by simp)
    | some e =>
      simp only [andThen]
      exact ⟨rfl, hfr⟩

/-- Net effect of FirmwareUpdater.update_firmware in the fault-free case
with an installed tree, a stale backup directory and a staged tree all
present: it succeeds, the backup space afterwards holds exactly the old
installed tree, the install space holds exactly the staged tree, the
staging space is emptied, and every path outside the three spaces is
untouched. -/
theorem update_firmware_spec (env : Env) (s : St) {bd : Nat}
    (hm1 : firmwarePath ∉ env.failMove) (hm2 : stagedPath ∉ env.failMove)
    (hr : backupPath ∉ env.failRemove)
    (hbk : lookupFS s.fs backupPath = some (Node.dir bd))
    (hfw : (lookupFS s.fs firmwarePath).isSome = true)
    (hst : (lookupFS s.fs stagedPath).isSome = true) :
    (update_firmware env s).2 = none ∧
    (∀ r, lookupFS (update_firmware env s).1.fs (backupPath ++ r) =
      lookupFS s.fs (firmwarePath ++ r)) ∧
    (∀ r, lookupFS (update_firmware env s).1.fs (firmwarePath ++ r) =
      lookupFS s.fs (stagedPath ++ r)) ∧
    (∀ r, lookupFS (update_firmware env s).1.fs (stagedPath ++ r) = none) ∧
    (∀ q, isUnder backupPath q = false → isUnder firmwarePath q = false →
      isUnder stagedPath q = false →
      lookupFS (update_firmware env s).1.fs q = lookupFS s.fs q) := by
  obtain ⟨v, hv⟩ := Option.isSome_iff_exists.mp hfw
  obtain ⟨w, hw⟩ := Option.isSome_iff_exists.mp hst
  have hfw1 : lookupFS (removeTree backupPath s.fs) firmwarePath = some v := by
    rw [lookupFS_removeTree, show isUnder backupPath firmwarePath = false from rfl,
      if_neg Bool.false_ne_true]
    exact hv
  have hbk1 : ∀ x, lookupFS (removeTree backupPath s.fs) (backupPath ++ x) = none := by
    intro x
    rw [lookupFS_removeTree, if_pos (isUnder_append_self backupPath x)]
  have hr1 : (if (lookupFS s.fs backupPath).isSome = true then shutilRmtree env backupPath s
      else (s, none)) = ({ s with fs := removeTree backupPath s.fs }, none) := by
    rw [hbk]
    show shutilRmtree env backupPath s = _
    unfold shutilRmtree
    rw [hbk]
    exact if_neg hr
  have e1 : update_firmware env s =
      andThen
        (if (lookupFS (removeTree backupPath s.fs) firmwarePath).isSome = true then
          shutilMove env firmwarePath backupPath { s with fs := removeTree backupPath s.fs }
        else ({ s with fs := removeTree backupPath s.fs }, none))
        (fun s2 => shutilMove env stagedPath firmwarePath s2) := by
    unfold update_firmware
    rw [hr1]
    rfl
  have hrd1 : realDst (removeTree backupPath s.fs) firmwarePath backupPath = backupPath := by
    unfold realDst
    rw [show lookupFS (removeTree backupPath s.fs) backupPath = none from hbk1 []]
  have hmove1 : shutilMove env firmwarePath backupPath
      { s with fs := removeTree backupPath s.fs } =
      ({ s with fs :=
          (relocate firmwarePath backupPath
            (removeTree backupPath (removeTree backupPath s.fs))) }, none) := by
    unfold shutilMove
    rw [if_neg hm1]
    dsimp only
    rw [hfw1, hrd1]
  have e2 : update_firmware env s = shutilMove env stagedPath firmwarePath
      { s with fs :=
          (relocate firmwarePath backupPath
            (removeTree backupPath (removeTree backupPath s.fs))) } := by
    rw [e1, show (lookupFS (removeTree backupPath s.fs) firmwarePath).isSome = true by
      rw [hfw1]; rfl, if_pos rfl, hmove1]
    rfl
  have hA : ∀ r, lookupFS (relocate firmwarePath backupPath
      (removeTree backupPath (removeTree backupPath s.fs))) (backupPath ++ r) =
      lookupFS s.fs (firmwarePath ++ r) := by
    intro r
    have hclean : ∀ x, lookupFS (removeTree backupPath (removeTree backupPath s.fs))
        (backupPath ++ x) = none := by
      intro x
      rw [lookupFS_removeTree, if_pos (isUnder_append_self backupPath x)]
    rw [lookupFS_relocate_moved _ _ _ hclean, lookupFS_removeTree, under_bk_fw r,
      if_neg Bool.false_ne_true, lookupFS_removeTree, under_bk_fw r,
      if_neg Bool.false_ne_true]
  have hB : ∀ r, lookupFS (relocate firmwarePath backupPath
      (removeTree backupPath (removeTree backupPath s.fs))) (stagedPath ++ r) =
      lookupFS s.fs (stagedPath ++ r) := by
    intro r
    rw [lookupFS_relocate_frame _ _ _ (under_fw_st r) (under_bk_st r),
      lookupFS_removeTree, under_bk_st r, if_neg Bool.false_ne_true,
      lookupFS_removeTree, under_bk_st r, if_neg Bool.false_ne_true]
  have hC : ∀ r, lookupFS (relocate firmwarePath backupPath
      (removeTree backupPath (removeTree backupPath s.fs))) (firmwarePath ++ r) = none := by
    intro r
    exact lookupFS_relocate_src firmwarePath backupPath _ (under_fw_bk []) (under_bk_fw []) r
  have hst2 : lookupFS (relocate firmwarePath backupPath
      (removeTree backupPath (removeTree backupPath s.fs))) stagedPath = some w :=
    (hB []).trans hw
  have hrd2 : realDst (relocate firmwarePath backupPath
      (removeTree backupPath (removeTree backupPath s.fs))) stagedPath firmwarePath =
      firmwarePath := by
    unfold realDst
    rw [show lookupFS (relocate firmwarePath backupPath
      (removeTree backupPath (removeTree backupPath s.fs))) firmwarePath = none from hC []]
  have e3 : update_firmware env s =
      ({ s with fs :=
          (relocate stagedPath firmwarePath
            (removeTree firmwarePath (relocate firmwarePath backupPath
              (removeTree backupPath (removeTree backupPath s.fs))))) }, none) := by
    rw [e2]
    unfold shutilMove
    rw [if_neg hm2]
    dsimp only
    rw [hst2, hrd2]
  refine ⟨by rw [e3], ?_, ?_, ?_, ?_⟩
  · intro r
    rw [e3]
    dsimp only
    rw [lookupFS_relocate_frame _ _ _ (under_st_bk r) (under_fw_bk r),
      lookupFS_removeTree, under_fw_bk r, if_neg Bool.false_ne_true]
    exact hA r
  · intro r
    rw [e3]
    dsimp only
    have hclean : ∀ x, lookupFS (removeTree firmwarePath (relocate firmwarePath backupPath
        (removeTree backupPath (removeTree backupPath s.fs)))) (firmwarePath ++ x) = none := by
      intro x
      rw [lookupFS_removeTree, if_pos (isUnder_append_self firmwarePath x)]
    rw [lookupFS_relocate_moved _ _ _ hclean, lookupFS_removeTree, under_fw_st r,
      if_neg Bool.false_ne_true]
    exact hB r
  · intro r
    rw [e3]
    dsimp only
    exact lookupFS_relocate_src stagedPath firmwarePath _ (under_st_fw []) (under_fw_st []) r
  · intro q hq1 hq2 hq3
    rw [e3]
    dsimp only
    rw [lookupFS_relocate_frame _ _ _ hq3 hq2, lookupFS_removeTree, hq2,
      if_neg Bool.false_ne_true, lookupFS_relocate_frame _ _ _ hq2 hq1,
      lookupFS_removeTree, hq1, if_neg Bool.false_ne_true,
      lookupFS_removeTree, hq1, if_neg Bool.false_ne_true]

/-! Claim theorems. -/

/-- C10: update_firmware deletes the existing backup before renaming the
installed tree onto the backup path, so when that rename fails after the
deletion, the run ends with an error, with no backup generation at all,
and with the installed tree unchanged: state was mutated (the old backup
was discarded) although the promotion did not complete. -/
theorem zero_backup_window (env : Env) (s : St) (bd : Nat)
    (hfault : firmwarePath ∈ env.failMove)
    (hr : backupPath ∉ env.failRemove)
    (hbk : lookupFS s.fs backupPath = some (Node.dir bd))
    (hfw : (lookupFS s.fs firmwarePath).isSome = true) :
    (update_firmware env s).2 = some (.osError firmwarePath) ∧
    (∀ r, lookupFS (update_firmware env s).1.fs (backupPath ++ r) = none) ∧
    (∀ r, lookupFS (update_firmware env s).1.fs (firmwarePath ++ r) =
      lookupFS s.fs (firmwarePath ++ r)) := by
  obtain ⟨v, hv⟩ := Option.isSome_iff_exists.mp hfw
  have hfw1 : lookupFS (removeTree backupPath s.fs) firmwarePath = some v := by
    rw [lookupFS_removeTree, show isUnder backupPath firmwarePath = false from rfl,
      if_neg Bool.false_ne_true]
    exact hv
  have hr1 : (if (lookupFS s.fs backupPath).isSome = true then shutilRmtree env backupPath s
      else (s, none)) = ({ s with fs := removeTree backupPath s.fs }, none) := by
    rw [hbk]
    show shutilRmtree env backupPath s = _
    unfold shutilRmtree
    rw [hbk]
    exact if_neg hr
  have e1 : update_firmware env s =
      andThen
        (if (lookupFS (removeTree backupPath s.fs) firmwarePath).isSome = true then
          shutilMove env firmwarePath backupPath { s with fs := removeTree backupPath s.fs }
        else ({ s with fs := removeTree backupPath s.fs }, none))
        (fun s2 => shutilMove env stagedPath firmwarePath s2) := by
    unfold update_firmware
    rw [hr1]
    rfl
  have hmove : shutilMove env firmwarePath backupPath
      { s with fs := removeTree backupPath s.fs } =
      ({ s with fs := removeTree backupPath s.fs }, some (.osError firmwarePath)) := by
    unfold shutilMove
    rw [if_pos hfault]
  have e2 : update_firmware env s =
      ({ s with fs := removeTree backupPath s.fs }, some (.osError firmwarePath)) := by
    rw [e1, show (lookupFS (removeTree backupPath s.fs) firmwarePath).isSome = true by
      rw [hfw1]; rfl, if_pos rfl, hmove]
    rfl
  refine ⟨by rw [e2], ?_, ?_⟩
  · intro r
    rw [e2]
    dsimp only
    rw [lookupFS_removeTree, if_pos (isUnder_append_self backupPath r)]
  · intro r
    rw [e2]
    dsimp only
    rw [lookupFS_removeTree, under_bk_fw r, if_neg Bool.false_ne_true]

/-- C10 witness: a concrete pre-promotion state with installed tree,
stale backup and staged tree, and a rename fault on the installed
tree. -/
theorem zero_backup_window_witness :
    (firmwarePath ∈ envMoveFail.failMove ∧ backupPath ∉ envMoveFail.failRemove ∧
     lookupFS stC10.fs backupPath = some (Node.dir 0o755) ∧
     (lookupFS stC10.fs firmwarePath).isSome = true) ∧
    ((update_firmware envMoveFail stC10).2 = some (.osError firmwarePath) ∧
     (∀ r, lookupFS (update_firmware envMoveFail stC10).1.fs (backupPath ++ r) = none) ∧
     (∀ r, lookupFS (update_firmware envMoveFail stC10).1.fs (firmwarePath ++ r) =
       lookupFS stC10.fs (firmwarePath ++ r))) :=
  ⟨⟨by decide, by decide, by decide, by decide⟩,
   zero_backup_window envMoveFail stC10 0o755 (by decide) (by decide) (by decide) (by decide)⟩

/-- C1 (amended): promotion performs the backup rotation exactly: in a
fault-free run of update_firmware on a state with installed tree, stale
backup and staged tree, it succeeds, the backup space afterwards equals
the pre-step installed tree byte for byte, the install space equals the
staged tree byte for byte, and the staging space is emptied, so at most
one backup generation is retained.  (After the promotion, the full
update further normalizes permission bits, ensures a kvm directory and
removes the stale kvm_system/kvm_stream path, so at the very end of a
run InstalledTree can differ from the staged tree in exactly those
respects; see the counterexample.) -/
theorem backup_rotation_promotion (env : Env) (s : St) (bd : Nat)
    (hm1 : firmwarePath ∉ env.failMove) (hm2 : stagedPath ∉ env.failMove)
    (hr : backupPath ∉ env.failRemove)
    (hbk : lookupFS s.fs backupPath = some (Node.dir bd))
    (hfw : (lookupFS s.fs firmwarePath).isSome = true)
    (hst : (lookupFS s.fs stagedPath).isSome = true) :
    (update_firmware env s).2 = none ∧
    subAt (update_firmware env s).1.fs backupPath = subAt s.fs firmwarePath ∧
    subAt (update_firmware env s).1.fs firmwarePath = subAt s.fs stagedPath ∧
    (∀ r, lookupFS (update_firmware env s).1.fs (stagedPath ++ r) = none) := by
  obtain ⟨h1, h2, h3, h4, _⟩ := update_firmware_spec env s hm1 hm2 hr hbk hfw hst
  exact ⟨h1, funext h2, funext h3, h4⟩

/-- C1 witness: the amended promotion theorem applied to the concrete
staged snapshot of the happy run. -/
theorem backup_rotation_promotion_witness :
    (lookupFS stagedSnapshot.fs backupPath = some (Node.dir 0o755) ∧
     (lookupFS stagedSnapshot.fs firmwarePath).isSome = true ∧
     (lookupFS stagedSnapshot.fs stagedPath).isSome = true) ∧
    ((update_firmware envHappy stagedSnapshot).2 = none ∧
     subAt (update_firmware envHappy stagedSnapshot).1.fs backupPath =
       subAt stagedSnapshot.fs firmwarePath ∧
     subAt (update_firmware envHappy stagedSnapshot).1.fs firmwarePath =
       subAt stagedSnapshot.fs stagedPath ∧
     (∀ r, lookupFS (update_firmware envHappy stagedSnapshot).1.fs (stagedPath ++ r) = none)) :=
  ⟨⟨by decide, by decide, by decide⟩,
   backup_rotation_promotion envHappy stagedSnapshot 0o755 (by decide) (by decide) (by decide)
     (by decide) (by decide) (by decide)⟩

/-- C2 (amended): when the firmware fetch fails on its status or
content-type validation, the run raises, the BackupTree is byte for byte
unchanged, and the InstalledTree is unchanged at every path outside the
stale kvm_system/kvm_stream subtree; that one subtree may be removed by
the stale-file cleanup that the finalization phase runs even on failed
runs, so the InstalledTree is not in general byte-for-byte unchanged
(see the counterexample). -/
theorem fetch_failure_frame (env : Env) (s : St)
    (hfail : statusOk env.fwStatus = false ∨ env.fwContentType ≠ "application/zip") :
    ((update env s).2).isSome = true ∧
    (∀ r, lookupFS (update env s).1.fs (backupPath ++ r) =
      lookupFS s.fs (backupPath ++ r)) ∧
    (∀ r, isUnder ["kvm_system", "kvm_stream"] r = false →
      lookupFS (update env s).1.fs (firmwarePath ++ r) =
        lookupFS s.fs (firmwarePath ++ r)) := by
  obtain ⟨hberr, hbfr⟩ := updateBody_fetchfail env s hfail
  refine ⟨?_, ?_, ?_⟩
  · show ((finallyBlock env (postBody env s)).2 <|> (updateBody env s).2).isSome = true
    cases hf : (finallyBlock env (postBody env s)).2 with
    | some e => rfl
    | none =>
      rw [Option.none_orElse]
      exact hberr
  · intro r
    show lookupFS (finallyBlock env (postBody env s)).1.fs (backupPath ++ r) = _
    rw [finallyBlock_frame env _ (under_tmp_bk r) rfl rfl rfl rfl rfl, postBody_fs]
    exact hbfr _ (under_tmp_bk r)
  · intro r hks
    have hks' : isUnder kvmStreamPath (firmwarePath ++ r) = false := by
      rw [under_ks_fw r]
      exact hks
    show lookupFS (finallyBlock env (postBody env s)).1.fs (firmwarePath ++ r) = _
    rw [finallyBlock_frame env _ (under_tmp_fw r) rfl rfl rfl rfl hks', postBody_fs]
    exact hbfr _ (under_tmp_fw r)

/-- C2 witness: the amended theorem applied to the concrete bad
content-type run. -/
theorem fetch_failure_frame_witness :
    (statusOk envBadCT.fwStatus = false ∨ envBadCT.fwContentType ≠ "application/zip") ∧
    (((update envBadCT stHappy).2).isSome = true ∧
     (∀ r, lookupFS (update envBadCT stHappy).1.fs (backupPath ++ r) =
       lookupFS stHappy.fs (backupPath ++ r)) ∧
     (∀ r, isUnder ["kvm_system", "kvm_stream"] r = false →
       lookupFS (update envBadCT stHappy).1.fs (firmwarePath ++ r) =
         lookupFS stHappy.fs (firmwarePath ++ r))) :=
  ⟨Or.inr (by decide), fetch_failure_frame envBadCT stHappy (Or.inr (by decide))⟩

/-- C2 counterexample: a fetch-failing run on a device whose installed
tree holds the stale kvm_system/kvm_stream file deletes that file (via
the cleanup in the finalization phase), so the InstalledTree is not
byte-for-byte unchanged. -/
theorem fetch_failure_cex :
    ((update envBadCT stHappy).2).isSome = true ∧
    lookupFS stHappy.fs (firmwarePath ++ ["kvm_system", "kvm_stream"]) =
      some (.file "oldstream" 0o755) ∧
    lookupFS (update envBadCT stHappy).1.fs (firmwarePath ++ ["kvm_system", "kvm_stream"]) =
      none ∧
    subAt (update envBadCT stHappy).1.fs firmwarePath ≠ subAt stHappy.fs firmwarePath := by
  refine ⟨by decide, by decide, by decide, ?_⟩
  intro h
  have h1 := congrFun h ["kvm_system", "kvm_stream"]
  revert h1
  decide

/-- C3 (amended): the finalization phase runs on every outcome, but
only its stale-file cleanup and process kill are best-effort: the
staging-area deletion is a plain rmtree that can raise.  When that
deletion does not fail (no injected fault, and the staging path is not a
plain file), finalization completes without adding any error, the
staging directory is absent afterwards, and the kill command is
launched; when the deletion raises, the rest of the finalization is
skipped (see the counterexample). -/
theorem finalization_cleanup (env : Env) (s : St)
    (hfault : temporaryPath ∉ env.failRemove) (h : TmpOK s.fs) :
    lookupFS (update env s).1.fs temporaryPath = none ∧
    Event.killallNanoKVM ∈ (update env s).1.trace ∧
    (update env s).2 = (updateBody env s).2 := by
  have hpb : TmpOK (postBody env s).fs := by
    unfold TmpOK TmpDir
    rw [postBody_fs]
    exact updateBody_tmpok env s h
  obtain ⟨hfe, hft, htr⟩ := finallyBlock_ok env (postBody env s) hfault hpb
  refine ⟨hft, ?_, ?_⟩
  · show Event.killallNanoKVM ∈ (finallyBlock env (postBody env s)).1.trace
    rw [htr]
    simp
  · show ((finallyBlock env (postBody env s)).2 <|> (updateBody env s).2) = _
    rw [hfe, Option.none_orElse]

/-- C3 witness: the amended theorem applied to the failing
bad-content-type run; the staging directory is gone and the kill was
launched even though the body raised. -/
theorem finalization_cleanup_witness :
    (temporaryPath ∉ envBadCT.failRemove ∧ TmpOK stHappy.fs) ∧
    (lookupFS (update envBadCT stHappy).1.fs temporaryPath = none ∧
     Event.killallNanoKVM ∈ (update envBadCT stHappy).1.trace ∧
     (update envBadCT stHappy).2 = (updateBody envBadCT stHappy).2) :=
  ⟨⟨by decide, Or.inl (by decide)⟩,
   finalization_cleanup envBadCT stHappy (by decide) (Or.inl (by decide))⟩

/-- C3 counterexample: with an EACCES-style fault on removing the
staging area, the deletion in the finally block raises: the run ends
with that OSError (replacing the fetch error), the staging directory is
still present afterwards, and the kill and cleanup never execute — so
the finalization phase is not exception-free and does not guarantee an
absent staging directory. -/
theorem finalization_cex :
    (update envC3 stHappy).2 = some (.osError temporaryPath) ∧
    lookupFS (update envC3 stHappy).1.fs temporaryPath =
      some (.dir (freshDirMode envC3)) ∧
    Event.killallNanoKVM ∉ (update envC3 stHappy).1.trace := by
  exact ⟨by decide, by decide, by decide⟩

/-- C4 (amended): a service restart is attempted exactly on fully
successful runs.  On every fatal error at any pipeline stage the run
raises and no restart command is ever attempted: the finalization phase
performs cleanup and the kill, but contains no restart. -/
theorem restart_only_on_success (env : Env) (s : St)
    (htr : s.trace = []) (hrm : env.failRemove = []) (h : TmpOK s.fs) :
    ((update env s).2 = none ↔ Event.serviceRestart ∈ (update env s).1.trace) := by
  have hfault : temporaryPath ∉ env.failRemove := by
    rw [hrm]
    simp
  have hpb : TmpOK (postBody env s).fs := by
    unfold TmpOK TmpDir
    rw [postBody_fs]
    exact updateBody_tmpok env s h
  obtain ⟨hfe, _, hftr⟩ := finallyBlock_ok env (postBody env s) hfault hpb
  have herr : (update env s).2 = (updateBody env s).2 := by
    show ((finallyBlock env (postBody env s)).2 <|> _) = _
    rw [hfe, Option.none_orElse]
  have htrace : (update env s).1.trace =
      (postBody env s).trace ++ [Event.killallNanoKVM] := hftr
  have hnos : Event.serviceRestart ∉ s.trace := by
    rw [htr]
    simp
  constructor
  · intro hnone
    rw [herr] at hnone
    have hmem := updateBody_success_restart env s hnone
    have hpbtr : (postBody env s).trace = (updateBody env s).1.trace := by
      unfold postBody
      cases hbx : updateBody env s with
      | mk s1 e1 =>
        rw [hbx] at hnone
        cases e1 with
        | none => rfl
        | some e => exact absurd hnone (by simp)
    rw [htrace, hpbtr]
    simp [hmem]
  · intro hmem
    by_contra hne
    rw [herr] at hne
    have hbs : ((updateBody env s).2).isSome = true := by
      cases hbx : (updateBody env s).2 with
      | none => exact absurd hbx hne
      | some e => rfl
    have hnr := updateBody_fail_norestart env s hnos hbs
    rw [htrace] at hmem
    have hpbm : Event.serviceRestart ∈ (postBody env s).trace := by
      rcases List.mem_append.mp hmem with hx | hx
      · exact hx
      · simp at hx
    unfold postBody at hpbm
    cases hbx : updateBody env s with
    | mk s1 e1 =>
      rw [hbx] at hpbm
      have hnr1 : Event.serviceRestart ∉ s1.trace := by
        have hx := hnr
        rw [hbx] at hx
        exact hx
      cases e1 with
      | none => exact hnr1 hpbm
      | some e =>
        rcases List.mem_append.mp hpbm with hx | hx
        · exact hnr1 hx
        · simp at hx

/-- C4 witness: the amended theorem applied to the happy run, where the
run succeeds and the restart is attempted. -/
theorem restart_only_on_success_witness :
    (stHappy.trace = [] ∧ envHappy.failRemove = [] ∧ TmpOK stHappy.fs) ∧
    ((update envHappy stHappy).2 = none ↔
      Event.serviceRestart ∈ (update envHappy stHappy).1.trace) :=
  ⟨⟨rfl, rfl, Or.inl (by decide)⟩,
   restart_only_on_success envHappy stHappy rfl rfl (Or.inl (by decide))⟩

/-- C4 counterexample: with a failing service stop the run reports
failure but no restart command is ever attempted, contradicting the
claim that a restart is attempted by the end of every run. -/
theorem restart_cex :
    ((update envStopFail stHappy).2).isSome = true ∧
    Event.serviceRestart ∉ (update envStopFail stHappy).1.trace :=
  ⟨by decide, by decide⟩

/-- C5 (amended): when the pipeline through the kernel-module step
succeeds but the installed version file is missing, the read failure is
logged and propagates: the run fails (exit code 1) and the service
restart is skipped.  No rollback is triggered: the backup space and the
whole installed tree are exactly as the pipeline left them (the tree
stays promoted). -/
theorem version_read_failure (env : Env) (s : St)
    (htr : s.trace = []) (hrm : env.failRemove = []) (h : TmpOK s.fs)
    (hp : (updatePipeline env s).2 = none)
    (hv : lookupFS (updatePipeline env s).1.fs versionPath = none) :
    ((update env s).2).isSome = true ∧
    (mainExit env s).1 = 1 ∧
    Event.serviceRestart ∉ (update env s).1.trace ∧
    Event.logError "Failed to read file" ∈ (update env s).1.trace ∧
    (∀ r, lookupFS (update env s).1.fs (backupPath ++ r) =
      lookupFS (updatePipeline env s).1.fs (backupPath ++ r)) ∧
    (∀ r, lookupFS (update env s).1.fs (firmwarePath ++ r) =
      lookupFS (updatePipeline env s).1.fs (firmwarePath ++ r)) := by
  have hfault : temporaryPath ∉ env.failRemove := by rw [hrm]; simp
  have hksf : kvmStreamPath ∉ env.failRemove := by rw [hrm]; simp
  have hkssp := updatePipeline_success_ks env s hksf hp
  cases hpp : updatePipeline env s with
  | mk sp ep =>
    rw [hpp] at hp hv hkssp
    cases ep with
    | some e => exact absurd hp (by simp)
    | none =>
      have hrv : readVersionStep sp =
          ({ sp with trace := sp.trace ++ [Event.logError "Failed to read file"] },
           some (.fileNotFoundError versionPath)) := by
        unfold readVersionStep read_file
        rw [hv]
      have hbody : updateBody env s =
          ({ sp with trace := sp.trace ++ [Event.logError "Failed to read file"] },
           some (.fileNotFoundError versionPath)) := by
        unfold updateBody
        rw [hpp]
        simp only [andThen]
        rw [hrv]
      have hpbfs : (postBody env s).fs = sp.fs := by
        rw [postBody_fs, hbody]
      have hpbtr : (postBody env s).trace =
          (sp.trace ++ [Event.logError "Failed to read file"]) ++
            [Event.logError "Update failed"] := by
        unfold postBody
        rw [hbody]
      have hpbok : TmpOK (postBody env s).fs := by
        unfold TmpOK TmpDir
        rw [postBody_fs]
        exact updateBody_tmpok env s h
      obtain ⟨hfe, _, hftr⟩ := finallyBlock_ok env (postBody env s) hfault hpbok
      have herr : (update env s).2 = some (.fileNotFoundError versionPath) := by
        show ((finallyBlock env (postBody env s)).2 <|> (updateBody env s).2) = _
        rw [hfe, Option.none_orElse, hbody]
      have hnos : Event.serviceRestart ∉ sp.trace := by
        have hx := updatePipeline_norestart env s (by rw [htr]; simp)
        rw [hpp] at hx
        exact hx
      refine ⟨by rw [herr]; rfl, ?_, ?_, ?_, ?_, ?_⟩
      · unfold mainExit
        dsimp only
        rw [herr]
      · show Event.serviceRestart ∉ (finallyBlock env (postBody env s)).1.trace
        rw [hftr, hpbtr]
        simp [hnos]
      · show Event.logError "Failed to read file" ∈
          (finallyBlock env (postBody env s)).1.trace
        rw [hftr, hpbtr]
        simp
      · intro r
        show lookupFS (finallyBlock env (postBody env s)).1.fs (backupPath ++ r) = _
        rw [finallyBlock_frame env _ (under_tmp_bk r) rfl rfl rfl rfl rfl, hpbfs]
      · intro r
        by_cases hks : isUnder ["kvm_system", "kvm_stream"] r = true
        · have hks' : isUnder kvmStreamPath (firmwarePath ++ r) = true := by
            rw [under_ks_fw r]
            exact hks
          have hL : lookupFS (update env s).1.fs (firmwarePath ++ r) = none := by
            show lookupFS (finallyBlock env (postBody env s)).1.fs (firmwarePath ++ r) = none
            exact finallyBlock_ks env _ hfault hksf hpbok hks'
          have hR : lookupFS sp.fs (firmwarePath ++ r) = none := hkssp _ hks'
          rw [hL, hR]
        · have hks0 : isUnder ["kvm_system", "kvm_stream"] r = false := by
            cases hb : isUnder ["kvm_system", "kvm_stream"] r
            · rfl
            · exact absurd hb hks
          have hks' : isUnder kvmStreamPath (firmwarePath ++ r) = false := by
            rw [under_ks_fw r]
            exact hks0
          show lookupFS (finallyBlock env (postBody env s)).1.fs (firmwarePath ++ r) = _
          rw [finallyBlock_frame env _ (under_tmp_fw r) rfl rfl rfl rfl hks', hpbfs]

/-- C5 witness: the amended theorem applied to a run whose archive lacks
the version file. -/
theorem version_read_failure_witness :
    (stHappy.trace = [] ∧ envNoVer.failRemove = [] ∧ TmpOK stHappy.fs ∧
     (updatePipeline envNoVer stHappy).2 = none ∧
     lookupFS (updatePipeline envNoVer stHappy).1.fs versionPath = none) ∧
    (((update envNoVer stHappy).2).isSome = true ∧
     (mainExit envNoVer stHappy).1 = 1 ∧
     Event.serviceRestart ∉ (update envNoVer stHappy).1.trace ∧
     Event.logError "Failed to read file" ∈ (update envNoVer stHappy).1.trace ∧
     (∀ r, lookupFS (update envNoVer stHappy).1.fs (backupPath ++ r) =
       lookupFS (updatePipeline envNoVer stHappy).1.fs (backupPath ++ r)) ∧
     (∀ r, lookupFS (update envNoVer stHappy).1.fs (firmwarePath ++ r) =
       lookupFS (updatePipeline envNoVer stHappy).1.fs (firmwarePath ++ r))) :=
  ⟨⟨rfl, rfl, Or.inl (by decide), by decide, by decide⟩,
   version_read_failure envNoVer stHappy rfl rfl (Or.inl (by decide))
     (by decide) (by decide)⟩

/-- C5 counterexample: with the version file missing after promotion,
the run reports failure (exit code 1) and skips the restart, while the
promoted tree (including the installed library) is in place; so the
read failure does make the overall run fail, contradicting the claim. -/
theorem version_read_cex :
    (update envNoVer stHappy).2 = some (.fileNotFoundError versionPath) ∧
    (mainExit envNoVer stHappy).1 = 1 ∧
    lookupFS (update envNoVer stHappy).1.fs
      (firmwarePath ++ ["kvm_system", "dl_lib", "libmaixcam_lib.so"]) =
      some (.file "LB" 0o755) ∧
    Event.serviceRestart ∉ (update envNoVer stHappy).1.trace :=
  ⟨by decide, by decide, by decide, by decide⟩

/-- C1 counterexample: in a fully successful happy run whose archive
carries a kvm_system/kvm_stream file, the staged tree holds that file at
promotion time but the final InstalledTree does not (cleanup_files
removes it), so after the full update InstalledTree does not equal the
newly staged tree. -/
theorem backup_rotation_cex :
    (update envHappy stHappy).2 = none ∧
    lookupFS stagedSnapshot.fs (stagedPath ++ ["kvm_system", "kvm_stream"]) =
      some (.file "S" (freshFileMode envHappy)) ∧
    lookupFS (update envHappy stHappy).1.fs (firmwarePath ++ ["kvm_system", "kvm_stream"]) =
      none ∧
    contentAt (update envHappy stHappy).1.fs firmwarePath ≠
      contentAt stagedSnapshot.fs stagedPath := by
  refine ⟨by decide, by decide, by decide, ?_⟩
  intro h
  have h1 := congrFun h ["kvm_system", "kvm_stream"]
  revert h1
  decide

/-- C6 (amended): extraction sanitizes member names, silently dropping
empty, dot and parent-directory components, so nothing is written
outside the staging directory and no error is raised for a traversal
name as such: whenever the filesystem root and the staging directory
exist as directories, every path not under the staging directory is
left unchanged by extracting any list of members. -/
theorem traversal_containment (env : Env) (ms : List ZipEntry) (s : St)
    (hroot : ∃ rp, lookupFS s.fs ["root"] = some (.dir rp))
    (htmp : ∃ tp, lookupFS s.fs temporaryPath = some (.dir tp)) :
    ∀ q, isUnder temporaryPath q = false →
      lookupFS (extractAll env temporaryPath ms s).1.fs q = lookupFS s.fs q := by
  obtain ⟨rp, hroot⟩ := hroot
  obtain ⟨tp, htmp⟩ := htmp
  exact extractAll_contained_aux env ms s rp tp hroot htmp

/-- Witness: containment applied to the traversal archive shows the
root-level path evil untouched. -/
theorem traversal_containment_witness :
    ((∃ rp, lookupFS stWithTmp.fs ["root"] = some (.dir rp)) ∧
     (∃ tp, lookupFS stWithTmp.fs temporaryPath = some (.dir tp))) ∧
    lookupFS (extractAll envTraversal temporaryPath archTraversal.entries
      stWithTmp).1.fs ["evil"] = lookupFS stWithTmp.fs ["evil"] :=
  ⟨⟨⟨0o755, by decide⟩, ⟨0o755, by decide⟩⟩,
   traversal_containment envTraversal archTraversal.entries stWithTmp
     ⟨0o755, by decide⟩ ⟨0o755, by decide⟩ ["evil"] (by decide)⟩

/-- C6 counterexample: an archive member named ../evil is extracted by
download_firmware WITHOUT any error: the parent-directory component is
silently dropped, the entry lands as evil inside the staging directory,
and nothing appears at the filesystem root; so no ArchiveError-style
rejection of traversal names exists. -/
theorem traversal_cex :
    (download_firmware envTraversal stWithTmp).2 = none ∧
    lookupFS (download_firmware envTraversal stWithTmp).1.fs
      (temporaryPath ++ ["evil"]) = some (.file "E" (freshFileMode envTraversal)) ∧
    lookupFS (download_firmware envTraversal stWithTmp).1.fs ["evil"] = none :=
  ⟨by decide, by decide, by decide⟩

theorem download_lib_run (env : Env) (s : St) (key : String) (km tp : Nat)
    (hkey : lookupFS s.fs deviceKeyPath = some (.file key km))
    (hst : statusOk env.libStatus = true)
    (hct : env.libContentType = "application/octet-stream")
    (hlib0 : lookupFS s.fs libFilePath = none)
    (htmp : lookupFS s.fs temporaryPath = some (.dir tp)) :
    download_lib env s = shutilCopy libFilePath dlLibPath
      { fs := insertNode libFilePath (.file env.libBytes (freshFileMode env)) s.fs,
        trace := s.trace ++ [Event.httpGet (libURL key.trim)] } := by
  unfold download_lib
  rw [show read_file deviceKeyPath s = (s, Except.ok key.trim) by
    unfold read_file; rw [hkey]]
  dsimp only
  rw [hst, if_neg (fun h => Bool.true_eq_false.mp h), if_neg (fun hx => hx hct)]
  unfold writeFileFS
  dsimp only
  rw [hlib0, show libFilePath.dropLast = temporaryPath from rfl, htmp]
  rfl

/-- C7 (amended): download_lib writes the fetched bytes to a fixed
filename inside the staging area and copies that file onto the staged
tree path kvm_system/dl_lib.  When that destination path is absent, the
behaviour depends on its parent: with kvm_system itself missing the
copy raises FileNotFoundError, but with kvm_system present as a
directory the copy succeeds silently and creates a plain FILE named
dl_lib — no error is raised for the missing destination directory. -/
theorem lib_placement (env : Env) (s : St) (key : String) (km tp : Nat)
    (hkey : lookupFS s.fs deviceKeyPath = some (.file key km))
    (hst : statusOk env.libStatus = true)
    (hct : env.libContentType = "application/octet-stream")
    (hlib0 : lookupFS s.fs libFilePath = none)
    (htmp : lookupFS s.fs temporaryPath = some (.dir tp))
    (hdl0 : lookupFS s.fs dlLibPath = none) :
    (lookupFS s.fs (stagedPath ++ ["kvm_system"]) = none →
      (download_lib env s).2 = some (.fileNotFoundError dlLibPath)) ∧
    (∀ pn, lookupFS s.fs (stagedPath ++ ["kvm_system"]) = some (.dir pn) →
      (download_lib env s).2 = none ∧
      lookupFS (download_lib env s).1.fs dlLibPath =
        some (.file env.libBytes (freshFileMode env))) := by
  rw [download_lib_run env s key km tp hkey hst hct hlib0 htmp]
  have h1 : lookupFS (insertNode libFilePath (.file env.libBytes (freshFileMode env)) s.fs)
      libFilePath = some (.file env.libBytes (freshFileMode env)) := by
    rw [lookupFS_insert, if_pos rfl]
  have h2 : lookupFS (insertNode libFilePath (.file env.libBytes (freshFileMode env)) s.fs)
      dlLibPath = none := by
    rw [lookupFS_insert, if_neg (by decide), hdl0]
  have h3 : lookupFS (insertNode libFilePath (.file env.libBytes (freshFileMode env)) s.fs)
      (stagedPath ++ ["kvm_system"]) = lookupFS s.fs (stagedPath ++ ["kvm_system"]) := by
    rw [lookupFS_insert, if_neg (by decide)]
  unfold shutilCopy
  dsimp only
  rw [h1]
  dsimp only
  rw [show realDst (insertNode libFilePath (.file env.libBytes (freshFileMode env)) s.fs)
      libFilePath dlLibPath = dlLibPath by unfold realDst; rw [h2]]
  rw [h2]
  dsimp only
  rw [show dlLibPath.dropLast = stagedPath ++ ["kvm_system"] from rfl, h3]
  constructor
  · intro h0
    rw [h0]
  · intro pn h0
    rw [h0]
    refine ⟨rfl, ?_⟩
    show lookupFS (insertNode dlLibPath (.file env.libBytes (freshFileMode env)) _) dlLibPath
      = _
    rw [lookupFS_insert, if_pos rfl]

/-- Witness: with the staged kvm_system directory present and dl_lib
absent, the run succeeds and creates the dl_lib file. -/
theorem lib_placement_witness :
    (lookupFS stNoDl.fs deviceKeyPath = some (.file "KEY" 0o644) ∧
     statusOk envHappy.libStatus = true ∧
     envHappy.libContentType = "application/octet-stream" ∧
     lookupFS stNoDl.fs libFilePath = none ∧
     lookupFS stNoDl.fs temporaryPath = some (.dir 0o755) ∧
     lookupFS stNoDl.fs dlLibPath = none ∧
     lookupFS stNoDl.fs (stagedPath ++ ["kvm_system"]) = some (.dir 0o755)) ∧
    ((download_lib envHappy stNoDl).2 = none ∧
     lookupFS (download_lib envHappy stNoDl).1.fs dlLibPath =
       some (.file envHappy.libBytes (freshFileMode envHappy))) :=
  ⟨⟨by decide, by decide, by decide, by decide, by decide, by decide, by decide⟩,
   (lib_placement envHappy stNoDl "KEY" 0o644 0o755 (by decide) (by decide) (by decide)
     (by decide) (by decide) (by decide)).2 0o755 (by decide)⟩

/-- C7 counterexample: the staged tree lacks kvm_system/dl_lib (only
kvm_system exists); download_lib nevertheless completes with NO error
and leaves a plain file named dl_lib, refuting the claim that a missing
destination directory raises an InstallError. -/
theorem lib_placement_cex :
    lookupFS stNoDl.fs dlLibPath = none ∧
    (download_lib envHappy stNoDl).2 = none ∧
    lookupFS (download_lib envHappy stNoDl).1.fs dlLibPath =
      some (.file "LB" (freshFileMode envHappy)) :=
  ⟨by decide, by decide, by decide⟩

theorem extractMember_zip_keep (env : Env) (m : ZipEntry) (s : St) {b : String} {mm : Nat}
    (hz : lookupFS s.fs zipFilePath = some (.file b mm))
    (hname : sanitize m.nameParts ≠ ["latest.zip"]) :
    lookupFS (extractMember env temporaryPath m s).1.fs zipFilePath = some (.file b mm) := by
  have htgt : extractTarget temporaryPath m ≠ zipFilePath := by
    intro hx
    refine hname ?_
    have hx2 : temporaryPath ++ sanitize m.nameParts = temporaryPath ++ ["latest.zip"] := hx
    exact List.append_cancel_left hx2
  unfold extractMember
  cases h0 : makedirsE env s.fs [] (extractTarget temporaryPath m).dropLast with
  | mk fs1 e1 =>
    have h1 : lookupFS fs1 zipFilePath = some (.file b mm) := by
      have hx := makedirsE_preserve env (extractTarget temporaryPath m).dropLast s.fs [] hz
      rw [h0] at hx
      exact hx
    cases e1 with
    | some e => exact h1
    | none =>
      cases hd : m.isDirEntry with
      | true =>
        dsimp only
        rw [if_pos rfl]
        cases ht : lookupFS fs1 (extractTarget temporaryPath m) with
        | some n =>
          cases n with
          | dir dp => exact h1
          | file c p => exact h1
        | none =>
          cases hp : lookupFS fs1 (extractTarget temporaryPath m).dropLast with
          | some n =>
            cases n with
            | dir dp =>
              show lookupFS (insertNode (extractTarget temporaryPath m)
                (.dir (freshDirMode env)) fs1) zipFilePath = _
              rw [lookupFS_insert, if_neg htgt]
              exact h1
            | file c p => exact h1
          | none => exact h1
      | false =>
        dsimp only
        rw [if_neg Bool.false_ne_true]
        rw [writeFileFS_frame env _ _ _ htgt]
        exact h1

theorem extractAll_zip_keep (env : Env) (ms : List ZipEntry) (s : St) {b : String} {mm : Nat}
    (hz : lookupFS s.fs zipFilePath = some (.file b mm))
    (hnames : ∀ e ∈ ms, sanitize e.nameParts ≠ ["latest.zip"]) :
    lookupFS (extractAll env temporaryPath ms s).1.fs zipFilePath = some (.file b mm) := by
  induction ms generalizing s with
  | nil => exact hz
  | cons m rest ih =>
    show lookupFS (andThen (extractMember env temporaryPath m s)
      (extractAll env temporaryPath rest)).1.fs zipFilePath = _
    cases h0 : extractMember env temporaryPath m s with
    | mk sa ea =>
      have h1 : lookupFS sa.fs zipFilePath = some (.file b mm) := by
        have hx := extractMember_zip_keep env m s hz (hnames m (List.mem_cons_self m rest))
        rw [h0] at hx
        exact hx
      cases ea with
      | some e => exact h1
      | none =>
        simp only [andThen]
        exact ih sa h1 (fun e he => hnames e (List.mem_cons_of_mem m he))

theorem download_firmware_accept (env : Env) (s : St) (tp : Nat)
    (hst : statusOk env.fwStatus = true)
    (hct : env.fwContentType = "application/zip")
    (htmp : lookupFS s.fs temporaryPath = some (.dir tp))
    (hz0 : lookupFS s.fs zipFilePath = none)
    (hnames : ∀ e ∈ env.fwArchive.entries, sanitize e.nameParts ≠ ["latest.zip"]) :
    lookupFS (download_firmware env s).1.fs zipFilePath =
      some (.file env.fwBody (freshFileMode env)) := by
  unfold download_firmware
  rw [hst, if_neg Bool.true_eq_false.mp, if_neg (fun hx => hx hct)]
  rw [show writeFileFS env zipFilePath env.fwBody
      { s with trace := s.trace ++ [Event.httpGet (firmwareURL env)] } =
      ({ fs := insertNode zipFilePath (.file env.fwBody (freshFileMode env)) s.fs,
         trace := s.trace ++ [Event.httpGet (firmwareURL env)] }, none) by
    unfold writeFileFS
    dsimp only
    rw [hz0, show zipFilePath.dropLast = temporaryPath from rfl, htmp]]
  simp only [andThen]
  cases hwf : env.fwArchive.wellFormed with
  | false =>
    rw [if_pos rfl]
    show lookupFS (insertNode zipFilePath (.file env.fwBody (freshFileMode env)) s.fs)
      zipFilePath = _
    rw [lookupFS_insert, if_pos rfl]
  | true =>
    rw [if_neg Bool.true_eq_false.mp]
    refine extractAll_zip_keep env env.fwArchive.entries _ ?_ hnames
    show lookupFS (insertNode zipFilePath (.file env.fwBody (freshFileMode env)) s.fs)
      zipFilePath = _
    rw [lookupFS_insert, if_pos rfl]

/-- C9 (amended): download_firmware issues one GET to the firmware URL,
which carries the cache-busting query parameter n set to the current
Unix timestamp; it accepts the body exactly when the status indicates
success and the content type equals application/zip, streaming the body
to latest.zip in the staging area; a wrong content type raises a
ValueError whose message includes the observed content type, but a bad
STATUS raises an HTTP status error that does not mention the content
type at all. -/
theorem fetch_validation (env : Env) (s : St) :
    firmwareURL env = "https://cdn.sipeed.com/nanokvm/latest.zip?n=" ++ toString env.now ∧
    (download_firmware env s).1.trace = s.trace ++ [Event.httpGet (firmwareURL env)] ∧
    (statusOk env.fwStatus = false →
      (download_firmware env s).2 = some (.httpStatusError env.fwStatus (firmwareURL env)) ∧
      (download_firmware env s).1.fs = s.fs) ∧
    (statusOk env.fwStatus = true → env.fwContentType ≠ "application/zip" →
      (download_firmware env s).2 =
        some (.valueError ("Invalid content type: " ++ env.fwContentType)) ∧
      (download_firmware env s).1.fs = s.fs ∧
      msgIncludes env.fwContentType
        (errMsg (.valueError ("Invalid content type: " ++ env.fwContentType))) = true) ∧
    (statusOk env.fwStatus = true → env.fwContentType = "application/zip" →
      ∀ tp, lookupFS s.fs temporaryPath = some (.dir tp) →
        lookupFS s.fs zipFilePath = none →
        (∀ e ∈ env.fwArchive.entries, sanitize e.nameParts ≠ ["latest.zip"]) →
        lookupFS (download_firmware env s).1.fs zipFilePath =
          some (.file env.fwBody (freshFileMode env))) := by
  refine ⟨rfl, download_firmware_trace env s, ?_, ?_, ?_⟩
  · intro hs
    unfold download_firmware
    rw [hs, if_pos rfl]
    exact ⟨rfl, rfl⟩
  · intro hs hct
    unfold download_firmware
    rw [hs, if_neg Bool.true_eq_false.mp, if_pos hct]
    exact ⟨rfl, rfl, msgIncludes_append "Invalid content type: " env.fwContentType⟩
  · intro hs hct tp htmp hz0 hnames
    exact download_firmware_accept env s tp hs hct htmp hz0 hnames

/-- Witness: the validation theorem applied to the 404 environment. -/
theorem fetch_validation_witness :
    statusOk env404.fwStatus = false ∧
    ((download_firmware env404 stWithTmp).2 =
      some (.httpStatusError env404.fwStatus (firmwareURL env404)) ∧
     (download_firmware env404 stWithTmp).1.fs = stWithTmp.fs) :=
  ⟨by decide, (fetch_validation env404 stWithTmp).2.2.1 (by decide)⟩

/-- C9 counterexample: a 404 response carrying content type text/html
raises an HTTP status error whose message does not include the observed
content type, refuting the claim that EVERY validation deviation yields
an error message naming the observed content type. -/
theorem fetch_validation_cex :
    env404.fwContentType = "text/html" ∧
    (download_firmware env404 stWithTmp).2 =
      some (.httpStatusError 404 (firmwareURL env404)) ∧
    msgIncludes "text/html" (errMsg (.httpStatusError 404 (firmwareURL env404))) = false :=
  ⟨by decide, by decide, by decide⟩

theorem shutilRmtree_keeps_some (env : Env) (p : Path) (s : St) {q : Path} {n : Node}
    (h : lookupFS (shutilRmtree env p s).1.fs q = some n) : lookupFS s.fs q = some n := by
  revert h
  unfold shutilRmtree
  split
  · exact id
  · exact id
  · split
    · exact id
    · show lookupFS (removeTree p s.fs) q = some n → _
      rw [lookupFS_removeTree]
      split
      · intro hx
        exact absurd hx (by simp)
      · exact id

theorem finallyBlock_keeps_some (env : Env) (s : St) {q : Path} {n : Node}
    (h : lookupFS (finallyBlock env s).1.fs q = some n) : lookupFS s.fs q = some n := by
  unfold finallyBlock at h
  cases ht : (lookupFS s.fs temporaryPath).isSome with
  | true =>
    rw [ht, if_pos rfl] at h
    cases h0 : shutilRmtree env temporaryPath s with
    | mk sa ea =>
      rw [h0] at h
      cases ea with
      | some e =>
        refine shutilRmtree_keeps_some env temporaryPath s ?_
        rw [h0]
        exact h
      | none =>
        dsimp only at h
        refine shutilRmtree_keeps_some env temporaryPath s ?_
        rw [h0]
        exact cleanup_files_keeps_some env
          { fs := sa.fs, trace := sa.trace ++ [Event.killallNanoKVM] } h
  | false =>
    rw [ht, if_neg Bool.false_ne_true] at h
    dsimp only at h
    exact cleanup_files_keeps_some env
      { fs := s.fs, trace := s.trace ++ [Event.killallNanoKVM] } h

theorem set_permissions_perm (s : St) (q : Path) (n : Node)
    (hq : isUnder firmwarePath q = true)
    (h : lookupFS (set_permissions s).1.fs q = some n) : nodePerm n = 0o755 := by
  have h2 : lookupFS (chmodTree firmwarePath 0o755 s.fs) q = some n := h
  rw [lookupFS_chmodTree, if_pos hq] at h2
  cases hl : lookupFS s.fs q with
  | none =>
    rw [hl] at h2
    exact Option.noConfusion h2
  | some n0 =>
    rw [hl] at h2
    have hn : setPerm n0 0o755 = n := by
      simpa using h2
    rw [← hn]
    cases n0 <;> rfl

theorem ancestors_two {a b : String} {q : Path} (h : isUnder q [a, b] = true) :
    q = [] ∨ q = [a] ∨ q = [a, b] := by
  rcases q with _ | ⟨x, _ | ⟨y, rest⟩⟩
  · exact Or.inl rfl
  · refine Or.inr (Or.inl ?_)
    simp [isUnder] at h
    rw [h]
  · refine Or.inr (Or.inr ?_)
    simp [isUnder] at h
    obtain ⟨h1, h2, h3⟩ := h
    subst h1
    subst h2
    rw [isUnder_nil_right h3]

theorem setup_directories_permok (env : Env) (s : St)
    (hfw : (lookupFS s.fs firmwarePath).isSome = true)
    (hperm : PermOK env s.fs) : PermOK env (setup_directories env s).fs := by
  intro q n hq hl
  unfold setup_directories safe_mkdir at hl
  dsimp only at hl
  rcases makedirsE_lookup env etcKvmPath ((makedirsE env s.fs [] kvmDirPath).1) [] q
    with h2 | h2
  · rw [h2] at hl
    rcases makedirsE_lookup env kvmDirPath s.fs [] q with h3 | h3
    · rw [h3] at hl
      exact hperm q n hq hl
    · obtain ⟨h30, h31, h32, h33⟩ := h3
      rw [List.nil_append] at h32
      rcases ancestors_two (show isUnder q ["kvmapp", "kvm"] = true from h32)
        with hq0 | hq0 | hq0
      · subst hq0
        exact absurd hq (by decide)
      · subst hq0
        have hx : lookupFS s.fs firmwarePath = none := h30
        rw [hx] at hfw
        exact absurd hfw (by simp)
      · subst hq0
        rw [h33] at hl
        exact Or.inr ⟨rfl, (Option.some_inj.mp hl).symm⟩
  · obtain ⟨h20, h21, h22, h23⟩ := h2
    rw [List.nil_append] at h22
    rcases ancestors_two (show isUnder q ["etc", "kvm"] = true from h22)
      with hq0 | hq0 | hq0
    · subst hq0
      exact absurd hq (by decide)
    · subst hq0
      exact absurd hq (by decide)
    · subst hq0
      exact absurd hq (by decide)

theorem shutilMove_success_dst (env : Env) (src dst : Path) (s : St)
    (hsd : isUnder src dst = false) (hds : isUnder dst src = false)
    (hdst : lookupFS s.fs dst = none)
    (h : (shutilMove env src dst s).2 = none) :
    (lookupFS (shutilMove env src dst s).1.fs dst).isSome = true := by
  unfold shutilMove at h ⊢
  by_cases hf : src ∈ env.failMove
  · rw [if_pos hf] at h
    exact absurd h (by simp)
  · rw [if_neg hf] at h ⊢
    cases hsrc : lookupFS s.fs src with
    | none =>
      rw [hsrc] at h
      dsimp only at h
      exact Option.noConfusion h
    | some v =>
      dsimp only
      rw [show realDst s.fs src dst = dst by unfold realDst; rw [hdst]]
      have hclean : ∀ x, lookupFS (removeTree dst s.fs) (dst ++ x) = none := by
        intro x
        rw [lookupFS_removeTree, if_pos (isUnder_append_self dst x)]
      have hmv := lookupFS_relocate_moved src dst (removeTree dst s.fs) hclean []
      rw [List.append_nil, List.append_nil] at hmv
      rw [hmv, lookupFS_removeTree, hds, if_neg Bool.false_ne_true, hsrc]
      rfl

theorem update_firmware_step1_bk (env : Env) (s : St)
    (h1 : (if (lookupFS s.fs backupPath).isSome = true then shutilRmtree env backupPath s
      else (s, none)).2 = none) :
    lookupFS (if (lookupFS s.fs backupPath).isSome = true then shutilRmtree env backupPath s
      else (s, none)).1.fs backupPath = none := by
  by_cases hb : (lookupFS s.fs backupPath).isSome = true
  · rw [if_pos hb] at h1 ⊢
    unfold shutilRmtree at h1 ⊢
    cases hlb : lookupFS s.fs backupPath with
    | none => exact hlb
    | some nb =>
      cases nb with
      | file c m =>
        rw [hlb] at h1
        dsimp only at h1
        exact Option.noConfusion h1
      | dir d =>
        rw [hlb] at h1
        dsimp only at h1
        by_cases hfr : backupPath ∈ env.failRemove
        · rw [if_pos hfr] at h1
          dsimp only at h1
          exact Option.noConfusion h1
        · rw [if_neg hfr]
          show lookupFS (removeTree backupPath s.fs) backupPath = none
          rw [lookupFS_removeTree, if_pos (isUnder_refl backupPath)]
  · rw [if_neg hb]
    cases hlb : lookupFS s.fs backupPath with
    | none => rfl
    | some nb =>
      rw [hlb] at hb
      exact absurd rfl hb

theorem update_firmware_step2_fw (env : Env) (s1 : St)
    (hbk : lookupFS s1.fs backupPath = none)
    (h1 : (if (lookupFS s1.fs firmwarePath).isSome = true then
        shutilMove env firmwarePath backupPath s1 else (s1, none)).2 = none) :
    lookupFS (if (lookupFS s1.fs firmwarePath).isSome = true then
        shutilMove env firmwarePath backupPath s1 else (s1, none)).1.fs firmwarePath
      = none := by
  by_cases hb : (lookupFS s1.fs firmwarePath).isSome = true
  · rw [if_pos hb] at h1 ⊢
    unfold shutilMove at h1 ⊢
    by_cases hf : firmwarePath ∈ env.failMove
    · rw [if_pos hf] at h1
      dsimp only at h1
      exact Option.noConfusion h1
    · rw [if_neg hf] at h1 ⊢
      cases hlf : lookupFS s1.fs firmwarePath with
      | none =>
        rw [hlf] at hb
        exact absurd hb (by simp)
      | some v =>
        dsimp only
        rw [show realDst s1.fs firmwarePath backupPath = backupPath by
          unfold realDst; rw [hbk]]
        exact lookupFS_relocate_src firmwarePath backupPath _ rfl rfl []
  · rw [if_neg hb]
    cases hlf : lookupFS s1.fs firmwarePath with
    | none => rfl
    | some v =>
      rw [hlf] at hb
      exact absurd rfl hb

theorem update_firmware_success_fw (env : Env) (s : St)
    (h : (update_firmware env s).2 = none) :
    (lookupFS (update_firmware env s).1.fs firmwarePath).isSome = true := by
  unfold update_firmware at h ⊢
  obtain ⟨h1, h2, h3⟩ := andThen_none h
  rw [h3]
  try dsimp only at h2 ⊢
  obtain ⟨h4, h5, h6⟩ := andThen_none h2
  rw [h6]
  try dsimp only at h5 ⊢
  refine shutilMove_success_dst env stagedPath firmwarePath _ rfl rfl ?_ h5
  refine update_firmware_step2_fw env _ ?_ h4
  exact update_firmware_step1_bk env s h1

theorem update_success_body (env : Env) (s : St) (h : (update env s).2 = none) :
    (updateBody env s).2 = none ∧ (finallyBlock env (postBody env s)).2 = none := by
  unfold update at h
  dsimp only at h
  cases hf : (finallyBlock env (postBody env s)).2 with
  | some e =>
    rw [hf] at h
    exact absurd h (by simp [Option.orElse])
  | none =>
    rw [hf, Option.none_orElse] at h
    exact ⟨h, rfl⟩

theorem pipelineTail_permok (env : Env) (s5 : St)
    (hfw0 : (lookupFS s5.fs firmwarePath).isSome = true) :
    ∀ q n, isUnder firmwarePath q = true →
      lookupFS (andThen (set_permissions s5) (fun s6 =>
        let s7 := setup_directories env s6
        let s8 := cleanup_files env s7
        ((handle_kernel_modules s8), none))).1.fs q = some n →
      nodePerm n = 0o755 ∨ (q = kvmDirPath ∧ n = Node.dir (freshDirMode env)) := by
  intro q n hq hl
  have hl2 : lookupFS (handle_kernel_modules (cleanup_files env
      (setup_directories env (set_permissions s5).1))).fs q = some n := hl
  rw [handle_kernel_modules_fs] at hl2
  have hl3 := cleanup_files_keeps_some env _ hl2
  have hbase : PermOK env (set_permissions s5).1.fs :=
    fun q' n' hq' hl' => Or.inl (set_permissions_perm s5 q' n' hq' hl')
  have hfw2 : (lookupFS (set_permissions s5).1.fs firmwarePath).isSome = true := by
    show (lookupFS (chmodTree firmwarePath 0o755 s5.fs) firmwarePath).isSome = true
    rw [lookupFS_chmodTree, if_pos (isUnder_refl firmwarePath)]
    cases hx : lookupFS s5.fs firmwarePath with
    | none =>
      rw [hx] at hfw0
      exact absurd hfw0 (by simp)
    | some v => rfl
  exact setup_directories_permok env (set_permissions s5).1 hfw2 hbase q n hq hl3

/-- C8 (amended): after a successful full update, every entry under the
installed tree has permission bits exactly 0755 EXCEPT possibly the kvm
directory: when the archive lacks a kvm directory, setup_directories
creates it after the chmod pass with the umask-masked default mode
0777 and-not umask, which need not be 0755. -/
theorem permission_normalization (env : Env) (s : St)
    (hsucc : (update env s).2 = none) :
    ∀ q n, isUnder firmwarePath q = true →
      lookupFS (update env s).1.fs q = some n →
      nodePerm n = 0o755 ∨ (q = kvmDirPath ∧ n = Node.dir (freshDirMode env)) := by
  intro q n hq hl
  obtain ⟨hbody, hfin⟩ := update_success_body env s hsucc
  have hl1 : lookupFS (postBody env s).fs q = some n :=
    finallyBlock_keeps_some env (postBody env s) hl
  rw [postBody_fs] at hl1
  unfold updateBody at hbody hl1
  obtain ⟨hp, hb2, hb3⟩ := andThen_none hbody
  rw [hb3] at hl1
  try dsimp only at hb2 hl1
  obtain ⟨hrv, hb4, hb5⟩ := andThen_none hb2
  rw [hb5] at hl1
  rw [service_control_fs] at hl1
  rw [readVersionStep_fs] at hl1
  unfold updatePipeline at hp hl1
  obtain ⟨ha1, ha2, ha3⟩ := andThen_none hp
  rw [ha3] at hl1
  try dsimp only at ha2 hl1
  obtain ⟨hb1, hb2x, hb3x⟩ := andThen_none ha2
  rw [hb3x] at hl1
  try dsimp only at hb2x hl1
  obtain ⟨hc1, hc2, hc3⟩ := andThen_none hb2x
  rw [hc3] at hl1
  try dsimp only at hc2 hl1
  obtain ⟨hd1, hd2, hd3⟩ := andThen_none hc2
  rw [hd3] at hl1
  try dsimp only at hd2 hl1
  obtain ⟨he1, he2, he3⟩ := andThen_none hd2
  rw [he3] at hl1
  try dsimp only at he2 hl1
  exact pipelineTail_permok env _ (update_firmware_success_fw env _ he1) q n hq hl1

/-- Witness: in the happy run the version file ends 0755. -/
theorem permission_normalization_witness :
    (update envHappy stHappy).2 = none ∧
    lookupFS (update envHappy stHappy).1.fs versionPath = some (.file " 1.2 " 0o755) ∧
    (nodePerm (Node.file " 1.2 " 0o755) = 0o755 ∨
     (versionPath = kvmDirPath ∧
      Node.file " 1.2 " 0o755 = Node.dir (freshDirMode envHappy))) :=
  ⟨by decide, by decide,
   permission_normalization envHappy stHappy (by decide) versionPath
     (Node.file " 1.2 " 0o755) (by decide) (by decide)⟩

/-- C8 counterexample: with a zero umask and an archive lacking the kvm
directory, the run succeeds and the kvm directory under the installed
tree ends with bits 0777, not 0755 — setup_directories runs after
set_permissions and creates it with the default mode. -/
theorem permission_normalization_cex :
    (update envUmask0 stHappy).2 = none ∧
    lookupFS (update envUmask0 stHappy).1.fs kvmDirPath = some (.dir 0o777) ∧
    nodePerm (Node.dir 0o777) ≠ 0o755 :=
  ⟨by decide, by decide, by decide⟩

end NanoKVM
